import Mathlib

/-!
Verification model of the bd sync engine (cmd/bd/main.go): the journal codec,
the hash gate, collision handling, the auto-import pipeline and the
incremental flusher.  External collaborators (the SQLite store, the JSON
codec, SHA-256) enter as explicit function parameters and per-call outcome
oracles; the orchestration logic modelled here is translated directly from
the source.  Store and filesystem effects are recorded as an event trace,
interpreted by small explicit interpreters (`runMetadata`, `runFs`,
`runDirty`).
-/

/-- Dependency record (types.Dependency): a directed edge between issues. -/
structure Dependency where
  issueID : String
  dependsOnID : String
  depType : String
deriving Repr, DecidableEq

/-- Issue record (types.Issue).  Go `time.Time` is modelled as `Nat` with `0`
playing the role of the zero time (`IsZero`), and Go pointer fields as
`Option`. -/
structure Issue where
  id : String
  title : String := ""
  description : String := ""
  design : String := ""
  acceptanceCriteria : String := ""
  notes : String := ""
  status : String := ""
  priority : Int := 0
  issueType : String := ""
  assignee : String := ""
  estimatedMinutes : Option Int := none
  externalRef : Option String := none
  createdAt : Nat := 0
  updatedAt : Nat := 0
  closedAt : Option Nat := none
  dependencies : List Dependency := []
deriving Repr, DecidableEq

/-- Value stored in an `UpdateIssue` updates map (Go `map[string]interface{}`):
a string, an integer, a timestamp, or an explicit null. -/
inductive FieldValue where
  | s (v : String)
  | i (v : Int)
  | t (v : Nat)
  | null
deriving Repr, DecidableEq

/-- Observable effect of the sync engine: a successful store mutation, a
filesystem operation, a stderr message, or the flush outcome report
(recordFlushSuccess / recordFlushFailure). -/
inductive Event where
  | updateIssue (id : String) (updates : List (String × FieldValue))
  | createIssue (issue : Issue)
  | addDependency (issueID dependsOnID depType : String)
  | setMetadata (key value : String)
  | clearDirty (ids : List String)
  | writeFile (path content : String)
  | removeFile (path : String)
  | renameFile (src dst : String)
  | stderr (msg : String)
  | flushSuccess
  | flushFailure
deriving Repr, DecidableEq

/-- Store mutations among events: entity upserts, dependency inserts, metadata
writes and dirty-set clears.  Filesystem events, stderr and the flush outcome
reports are not store mutations. -/
def Event.isStoreMutation : Event → Bool
  | .updateIssue _ _ => true
  | .createIssue _ => true
  | .addDependency _ _ _ => true
  | .setMetadata _ _ => true
  | .clearDirty _ => true
  | _ => false

/-- Filesystem-touching events. -/
def Event.fsAction : Event → Bool
  | .writeFile _ _ => true
  | .removeFile _ => true
  | .renameFile _ _ => true
  | _ => false

/-- Trace contains some store mutation. -/
def mutatesStore (tr : List Event) : Bool :=
  tr.any Event.isStoreMutation

/-- Trace contains a metadata write for the given key. -/
def setsKey (tr : List Event) (k : String) : Bool :=
  tr.any fun e => match e with
    | .setMetadata key _ => key == k
    | _ => false

/-- Trace contains an UpdateIssue call for the given id. -/
def updatesId (tr : List Event) (id : String) : Bool :=
  tr.any fun e => match e with
    | .updateIssue i _ => i == id
    | _ => false

/-- Metadata map update (SetMetadata semantics: the key now maps to `v`). -/
def mdSet (md : List (String × String)) (k v : String) : List (String × String) :=
  (k, v) :: md.filter (fun e => !(e.1 == k))

/-- Metadata map lookup. -/
def mdGet (md : List (String × String)) (k : String) : Option String :=
  (md.find? (fun e => e.1 == k)).map (·.2)

/-- Interpret one event against the metadata map. -/
def applyMetadataEvent (md : List (String × String)) : Event → List (String × String)
  | .setMetadata k v => mdSet md k v
  | _ => md

/-- Interpret a trace against the metadata map. -/
def runMetadata (md : List (String × String)) (tr : List Event) : List (String × String) :=
  tr.foldl applyMetadataEvent md

/-- Filesystem map update: the path now holds `c`. -/
def fsSet (fs : List (String × String)) (p c : String) : List (String × String) :=
  (p, c) :: fs.filter (fun e => !(e.1 == p))

/-- Filesystem map removal. -/
def fsErase (fs : List (String × String)) (p : String) : List (String × String) :=
  fs.filter (fun e => !(e.1 == p))

/-- Filesystem map lookup. -/
def fsGet (fs : List (String × String)) (p : String) : Option String :=
  (fs.find? (fun e => e.1 == p)).map (·.2)

/-- Interpret one event against the filesystem map. -/
def applyFsEvent (fs : List (String × String)) : Event → List (String × String)
  | .writeFile p c => fsSet fs p c
  | .removeFile p => fsErase fs p
  | .renameFile src dst =>
    match fsGet fs src with
    | some c => fsSet (fsErase fs src) dst c
    | none => fs
  | _ => fs

/-- Interpret a trace against the filesystem map. -/
def runFs (fs : List (String × String)) (tr : List Event) : List (String × String) :=
  tr.foldl applyFsEvent fs

/-- Interpret one event against the store-level dirty set
(ClearDirtyIssuesByID removes exactly the given ids). -/
def applyDirtyEvent (d : List String) : Event → List String
  | .clearDirty ids => d.filter (fun x => !(ids.contains x))
  | _ => d

/-- Interpret a trace against the dirty set. -/
def runDirty (d : List String) (tr : List Event) : List String :=
  tr.foldl applyDirtyEvent d

/-- Structurally recursive splitter on newline characters, the model of
bytes.Split(data, []byte("\\n")) / the line scanner.  Splitting "a\\nb" gives
["a", "b"]; a trailing newline contributes a final empty line. -/
def splitLinesAux : List Char → List Char → List String
  | [], acc => [String.mk acc.reverse]
  | c :: rest, acc =>
    if c = '\n' then String.mk acc.reverse :: splitLinesAux rest []
    else splitLinesAux rest (c :: acc)

/-- Split a journal into its newline-separated lines. -/
def splitLines (s : String) : List String :=
  splitLinesAux s.data []

/-- Drop leading and trailing whitespace from a char list, the model of
bytes.TrimSpace (restricted to ASCII whitespace). -/
def trimChars (l : List Char) : List Char :=
  ((l.dropWhile Char.isWhitespace).reverse.dropWhile Char.isWhitespace).reverse

/-- Char-list prefix test, the model of bytes.HasPrefix. -/
def startsWithChars : List Char → List Char → Bool
  | _, [] => true
  | [], _ :: _ => false
  | a :: as, b :: bs => a == b && startsWithChars as bs

/-- Conflict-marker test for one journal line (checkMergeConflicts body):
after trimming whitespace the line starts with a seven-marker plus space, or
is exactly seven equals signs. -/
def isConflictLine (line : String) : Bool :=
  let trimmed := trimChars line.data
  startsWithChars trimmed "<<<<<<< ".data || trimmed == "=======".data ||
    startsWithChars trimmed ">>>>>>> ".data

/-- Translation of checkMergeConflicts: scan all newline-separated lines of
the journal for git merge conflict markers. -/
def checkMergeConflicts (jsonlData : String) : Bool :=
  (splitLines jsonlData).any isConflictLine

/-- Line-by-line worker of parseJSONLIssues.  `parse` stands for
`json.Unmarshal` into types.Issue; `n` is the number of lines already
consumed. -/
def parseLines (parse : String → Except String Issue) :
    List String → Nat → Except String (List Issue)
  | [], _ => .ok []
  | line :: rest, n =>
    if line == "" then parseLines parse rest (n + 1)
    else
      match parse line with
      | .error e => .error ("parse error at line " ++ toString (n + 1) ++ ": " ++ e)
      | .ok issue =>
        match parseLines parse rest (n + 1) with
        | .error e => .error e
        | .ok issues => .ok (issue :: issues)

/-- Translation of parseJSONLIssues: parse every non-empty line; the first
malformed line fails the whole parse with its line number. -/
def parseJSONLIssues (parse : String → Except String Issue) (jsonlData : String) :
    Except String (List Issue) :=
  parseLines parse (splitLines jsonlData) 0

/-- Association-map insert with last-write-wins per key (Go map assignment). -/
def mapInsert (m : List (String × Issue)) (id : String) (issue : Issue) :
    List (String × Issue) :=
  m.filter (fun e => !(e.1 == id)) ++ [(id, issue)]

/-- Association-map delete. -/
def mapErase (m : List (String × Issue)) (id : String) : List (String × Issue) :=
  m.filter (fun e => !(e.1 == id))

/-- Line-by-line worker of readExistingJSONL: malformed lines are skipped
with a stderr warning instead of failing; parsed issues are keyed by id. -/
def readLines (parse : String → Except String Issue) :
    List String → Nat → List (String × Issue) → List (String × Issue) × List Event
  | [], _, m => (m, [])
  | line :: rest, n, m =>
    if line == "" then readLines parse rest (n + 1) m
    else
      match parse line with
      | .ok issue => readLines parse rest (n + 1) (mapInsert m issue.id issue)
      | .error _ =>
        let r := readLines parse rest (n + 1) m
        (r.1, Event.stderr ("Warning: skipping malformed JSONL line " ++ toString (n + 1)) :: r.2)

/-- Translation of readExistingJSONL: read the existing journal into an
id-keyed issue map; a missing or unreadable file yields the empty map. -/
def readExistingJSONL (parse : String → Except String Issue) (file : Option String) :
    List (String × Issue) × List Event :=
  match file with
  | none => ([], [])
  | some data => readLines parse (splitLines data) 0 []

/-- Translation of buildIssueUpdates: the canonical update map for an issue,
with the status/closed_at invariant (bd-226) applied to the closed_at entry.
`now` stands for time.Now().UTC(). -/
def buildIssueUpdates (now : Nat) (issue : Issue) : List (String × FieldValue) :=
  let base : List (String × FieldValue) :=
    [("title", FieldValue.s issue.title),
     ("description", FieldValue.s issue.description),
     ("design", FieldValue.s issue.design),
     ("acceptance_criteria", FieldValue.s issue.acceptanceCriteria),
     ("notes", FieldValue.s issue.notes),
     ("status", FieldValue.s issue.status),
     ("priority", FieldValue.i issue.priority),
     ("issue_type", FieldValue.s issue.issueType),
     ("assignee", FieldValue.s issue.assignee)]
  let base := base ++
    (match issue.estimatedMinutes with
     | some v => [("estimated_minutes", FieldValue.i v)]
     | none => [])
  let base := base ++
    (match issue.externalRef with
     | some v => [("external_ref", FieldValue.s v)]
     | none => [])
  base ++
    [("closed_at",
      if issue.status == "closed" then
        match issue.closedAt with
        | some v => FieldValue.t v
        | none => if issue.updatedAt ≠ 0 then FieldValue.t issue.updatedAt else FieldValue.t now
      else FieldValue.null)]

/-- Translation of enforceClosedAtInvariant: on the create path a closed
issue with unset closed_at gets the current UTC time; a non-closed issue has
closed_at forced to null. -/
def enforceClosedAtInvariant (now : Nat) (issue : Issue) : Issue :=
  if issue.status == "closed" then
    match issue.closedAt with
    | none => { issue with closedAt := some now }
    | some _ => issue
  else
    { issue with closedAt := none }

/-- Collision record (sqlite.CollisionDetail as used by main.go): the
colliding id, the incoming issue, and the similarity score set by scoring. -/
structure CollisionDetail where
  id : String
  incomingIssue : Issue
  score : Nat
deriving Repr, DecidableEq

/-- Translation of filterCollidingIssues: remove from the import list every
issue whose id collides, independent of any similarity score. -/
def filterCollidingIssues (allIssues : List Issue) (collisions : List CollisionDetail) :
    List Issue :=
  allIssues.filter (fun issue => !(collisions.any (fun c => c.id == issue.id)))

/-- Modelled from the spec: sqlite.ScoreCollisions is not under src/; per
spec §4.4 scoring sets each collision's similarity score deterministically,
here through the oracle `scoreOf`. -/
def scoreCollisionsModel (scoreOf : String → Nat) (cs : List CollisionDetail) :
    List CollisionDetail :=
  cs.map fun c => { c with score := scoreOf c.id }

/-- Modelled from the spec: sqlite.RemapCollisions is not under src/; per
spec §4.4 and the §9 note "the source currently always remaps", every
colliding incoming entity is created under a freshly allocated id (oracle
`freshIdOf`) and the old-to-new mapping is returned. -/
def remapCollisionsModel (freshIdOf : String → String) (cs : List CollisionDetail) :
    List (String × String) × List Event :=
  (cs.map (fun c => (c.id, freshIdOf c.id)),
   cs.map (fun c => Event.createIssue { c.incomingIssue with id := freshIdOf c.id }))

/-- Environment of one auto-import run: the raw journal read result, the
metadata read result, debug flag, backend kind, and the outcome oracles for
every store call the pipeline makes. -/
structure ImportEnv where
  journal : Option String
  lastHashResult : Except String String
  debug : Bool
  isSqliteBackend : Bool := true
  detectResult : Except String (List CollisionDetail) := .ok []
  searchForScoring : Except String (List Issue) := .ok []
  scoreOutcome : Except String Unit := .ok ()
  scoreOf : String → Nat := fun _ => 0
  remapOutcome : Except String Unit := .ok ()
  freshIdOf : String → String := fun s => s
  searchForImport : Except String (List Issue) := .ok []
  updateOutcome : String → Except String Unit := fun _ => .ok ()
  createOutcome : String → Except String Unit := fun _ => .ok ()
  depsOf : String → Except String (List Dependency) := fun _ => .ok []
  addDepOutcome : String → String → String → Except String Unit := fun _ _ _ => .ok ()
  setHashOutcome : Except String Unit := .ok ()
  now : Nat := 0

/-- Translation of validateJSONLHash: read the journal, hash it, read
last_import_hash (treating a metadata read error as the empty hash, bd-663),
and decide whether to import.  Returns the data and hash when import should
proceed. -/
def validateJSONLHash (sha : String → String) (env : ImportEnv) :
    Option (String × String) × List Event :=
  match env.journal with
  | none =>
    (none, if env.debug then [Event.stderr "Debug: auto-import skipped, JSONL not found"] else [])
  | some data =>
    let hash := sha data
    let lastHash :=
      match env.lastHashResult with
      | .ok h => h
      | .error _ => ""
    let ev0 : List Event :=
      match env.lastHashResult with
      | .ok _ => []
      | .error _ =>
        if env.debug then
          [Event.stderr "Debug: metadata read failed, treating as first import"]
        else []
    if hash == lastHash then
      (none, ev0 ++
        if env.debug then
          [Event.stderr "Debug: auto-import skipped, JSONL unchanged (hash match)"]
        else [])
    else
      (some (data, hash), ev0 ++
        if env.debug then [Event.stderr "Debug: auto-import triggered (hash changed)"] else [])

/-- Translation of handleCollisions: detect, score and remap collisions, then
drop the colliding issues from the import list (they were already created
under new ids by the remap).  The per-mapping stderr report of
showCollisionRemapping is collapsed into one stderr event. -/
def handleCollisions (env : ImportEnv) (allIssues : List Issue) :
    Except String (List Issue) × List Event :=
  match env.detectResult with
  | .error e => (.error ("collision detection error: " ++ e), [])
  | .ok collisions =>
    if collisions.isEmpty then (.ok allIssues, [])
    else
      match env.searchForScoring with
      | .error e => (.error ("error getting existing issues: " ++ e), [])
      | .ok _ =>
        match env.scoreOutcome with
        | .error e => (.error ("error scoring collisions: " ++ e), [])
        | .ok _ =>
          let scored := scoreCollisionsModel env.scoreOf collisions
          match env.remapOutcome with
          | .error e => (.error ("error remapping collisions: " ++ e), [])
          | .ok _ =>
            let remapped := remapCollisionsModel env.freshIdOf scored
            let notify :=
              Event.stderr ("Auto-import: remapped " ++ toString remapped.1.length ++
                " colliding issue(s) to new IDs")
            (.ok (filterCollidingIssues allIssues scored), remapped.2 ++ [notify])

/-- Translation of importIssuesFromJSONL: batch-fetch existing issues
(bd-666), then upsert each incoming issue; upsert errors are discarded
(`_ = store.UpdateIssue`, `_ = store.CreateIssue`), so a failed upsert emits
no mutation event and does not stop the loop. -/
def importIssuesFromJSONL (env : ImportEnv) (allIssues : List Issue) :
    Except String Unit × List Event :=
  match env.searchForImport with
  | .error e => (.error ("error fetching existing issues: " ++ e), [])
  | .ok existing =>
    let existingIDs := existing.map (·.id)
    (.ok (),
     allIssues.flatMap fun issue =>
       if existingIDs.contains issue.id then
         match env.updateOutcome issue.id with
         | .ok _ => [Event.updateIssue issue.id (buildIssueUpdates env.now issue)]
         | .error _ => []
       else
         match env.createOutcome issue.id with
         | .ok _ => [Event.createIssue (enforceClosedAtInvariant env.now issue)]
         | .error _ => [])

/-- Translation of importDependenciesFromJSONL: for each issue with
dependencies, a failed GetDependencyRecords skips the issue (`continue`), and
only (from,to,kind) triples not already present are added; AddDependency
errors are discarded. -/
def importDependenciesFromJSONL (env : ImportEnv) (allIssues : List Issue) : List Event :=
  allIssues.flatMap fun issue =>
    if issue.dependencies.isEmpty then []
    else
      match env.depsOf issue.id with
      | .error _ => []
      | .ok existingDeps =>
        issue.dependencies.flatMap fun dep =>
          if existingDeps.any (fun ex =>
              ex.dependsOnID == dep.dependsOnID && ex.depType == dep.depType) then []
          else
            match env.addDepOutcome issue.id dep.dependsOnID dep.depType with
            | .ok _ => [Event.addDependency issue.id dep.dependsOnID dep.depType]
            | .error _ => []

/-- Translation of autoImportIfNewer: hash gate, conflict-marker check,
parse, backend check, collision handling, entity import, dependency import,
and finally persisting the new last_import_hash (a failed SetMetadata only
warns). -/
def autoImportIfNewer (sha : String → String) (parse : String → Except String Issue)
    (env : ImportEnv) : List Event :=
  match validateJSONLHash sha env with
  | (none, evs) => evs
  | (some (data, hash), ev0) =>
    if checkMergeConflicts data then
      ev0 ++ [Event.stderr "Git merge conflict detected in JSONL"]
    else
      match parseJSONLIssues parse data with
      | .error e => ev0 ++ [Event.stderr ("Auto-import skipped: " ++ e)]
      | .ok allIssues =>
        if ¬ env.isSqliteBackend then
          ev0 ++ [Event.stderr "Auto-import disabled for non-SQLite backend"]
        else
          match handleCollisions env allIssues with
          | (.error e, ev1) => ev0 ++ ev1 ++ [Event.stderr ("Auto-import failed: " ++ e)]
          | (.ok filtered, ev1) =>
            match importIssuesFromJSONL env filtered with
            | (.error e, ev2) => ev0 ++ ev1 ++ ev2 ++ [Event.stderr ("Auto-import failed: " ++ e)]
            | (.ok _, ev2) =>
              let ev3 := importDependenciesFromJSONL env filtered
              let ev4 :=
                match env.setHashOutcome with
                | .ok _ => [Event.setMetadata "last_import_hash" hash]
                | .error _ =>
                  [Event.stderr "Warning: failed to update last_import_hash after import"]
              ev0 ++ ev1 ++ ev2 ++ ev3 ++ ev4

/-- Environment of one flush run: the in-memory guard flags, the results of
the store reads, and success flags for the filesystem and store operations
the flush performs. -/
structure FlushEnv where
  storeActive : Bool := true
  isDirty : Bool := true
  dirtyResult : Except String (List String)
  existingJournal : Option String := none
  getIssue : String → Except String (Option Issue) := fun _ => .ok none
  getDeps : String → Except String (List Dependency) := fun _ => .ok []
  createTempOk : Bool := true
  writeOk : Bool := true
  renameOk : Bool := true
  clearOk : Bool := true
  readBackOk : Bool := true
  setHashOk : Bool := true
  pid : Nat := 1

/-- Translation of fetchAndUpdateDirtyIssues: for each dirty id, a failed
GetIssue or GetDependencyRecords aborts; a missing issue is deleted from the
map; otherwise the map entry is replaced with its dependency list refreshed. -/
def fetchAndUpdateDirtyIssues (env : FlushEnv) :
    List String → List (String × Issue) → Except String (List (String × Issue))
  | [], m => .ok m
  | id :: rest, m =>
    match env.getIssue id with
    | .error e => .error ("failed to get issue " ++ id ++ ": " ++ e)
    | .ok none => fetchAndUpdateDirtyIssues env rest (mapErase m id)
    | .ok (some issue) =>
      match env.getDeps id with
      | .error e => .error ("failed to get dependencies for " ++ id ++ ": " ++ e)
      | .ok deps => fetchAndUpdateDirtyIssues env rest (mapInsert m id { issue with dependencies := deps })

/-- Lexicographic char-list comparison, the model of Go string comparison
(byte-wise less-or-equal, identical to it on ASCII ids). -/
def leCharList : List Char → List Char → Bool
  | [], _ => true
  | _ :: _, [] => false
  | a :: as, b :: bs =>
    if a < b then true
    else if b < a then false
    else leCharList as bs

/-- Lexicographic string comparison used by the flush sort. -/
def leStr (a b : String) : Bool :=
  leCharList a.data b.data

theorem leCharList_total : ∀ x y : List Char, leCharList x y = true ∨ leCharList y x = true := by
  intro x
  induction x with
  | nil => intro y; left; rfl
  | cons a as ih =>
    intro y
    cases y with
    | nil => right; rfl
    | cons b bs =>
      rcases lt_trichotomy a b with h | h | h
      · left; simp [leCharList, h]
      · subst h
        rcases ih bs with h1 | h1
        · left; simp [leCharList, lt_irrefl, h1]
        · right; simp [leCharList, lt_irrefl, h1]
      · right; simp [leCharList, h]

theorem leCharList_trans : ∀ x y z : List Char, leCharList x y = true →
    leCharList y z = true → leCharList x z = true := by
  intro x
  induction x with
  | nil => intro y z _ _; rfl
  | cons a as ih =>
    intro y z hxy hyz
    cases y with
    | nil => simp [leCharList] at hxy
    | cons b bs =>
      cases z with
      | nil => simp [leCharList] at hyz
      | cons c cs =>
        simp only [leCharList] at hxy hyz ⊢
        rcases lt_trichotomy a b with hab | hab | hab
        · rcases lt_trichotomy b c with hbc | hbc | hbc
          · simp [lt_trans hab hbc]
          · subst hbc; simp [hab]
          · rw [if_neg (asymm hbc), if_pos hbc] at hyz
            exact absurd hyz (by simp)
        · subst hab
          rcases lt_trichotomy a c with hac | hac | hac
          · simp [hac]
          · subst hac
            rw [if_neg (lt_irrefl a), if_neg (lt_irrefl a)] at hxy hyz ⊢
            exact ih bs cs hxy hyz
          · rw [if_neg (asymm hac), if_pos hac] at hyz
            exact absurd hyz (by simp)
        · rw [if_neg (asymm hab), if_pos hab] at hxy
          exact absurd hxy (by simp)

theorem leCharList_antisymm : ∀ x y : List Char, leCharList x y = true →
    leCharList y x = true → x = y := by
  intro x
  induction x with
  | nil =>
    intro y _ hyx
    cases y with
    | nil => rfl
    | cons b bs => simp [leCharList] at hyx
  | cons a as ih =>
    intro y hxy hyx
    cases y with
    | nil => simp [leCharList] at hxy
    | cons b bs =>
      simp only [leCharList] at hxy hyx
      rcases lt_trichotomy a b with hab | hab | hab
      · rw [if_neg (asymm hab), if_pos hab] at hyx
        exact absurd hyx (by simp)
      · subst hab
        rw [if_neg (lt_irrefl a), if_neg (lt_irrefl a)] at hxy hyx
        rw [ih bs hxy hyx]
      · rw [if_neg (asymm hab), if_pos hab] at hxy
        exact absurd hxy (by simp)

/-- Order used by the flush sort (sort.Slice with `issues[i].ID < issues[j].ID`):
issues compared lexicographically by id. -/
def idLe (a b : Issue) : Prop := leStr a.id b.id = true

instance : DecidableRel idLe := fun a b => inferInstanceAs (Decidable (leStr a.id b.id = true))

instance : IsTotal Issue idLe :=
  ⟨fun a b => leCharList_total a.id.data b.id.data⟩

instance : IsTrans Issue idLe :=
  ⟨fun _ _ _ h₁ h₂ => leCharList_trans _ _ _ h₁ h₂⟩

theorem idLe_antisymm_ids (a b : Issue) (h₁ : idLe a b) (h₂ : idLe b a) : a.id = b.id := by
  have := leCharList_antisymm a.id.data b.id.data h₁ h₂
  cases ha : a.id with
  | mk la =>
    cases hb : b.id with
    | mk lb =>
      rw [ha, hb] at this
      simp only at this
      rw [this]

/-- Sorting step of flushToJSONL: the merged issue map converted to a slice
sorted ascending by id. -/
def sortIssues (l : List Issue) : List Issue :=
  l.insertionSort idLe

/-- Serialization of the issue slice: one encoded issue per line with a
trailing newline (json.Encoder.Encode appends a newline per record).  `enc`
stands for the JSON encoding of one issue. -/
def serializeIssues (enc : Issue → String) (issues : List Issue) : String :=
  String.join (issues.map (fun i => enc i ++ "\n"))

/-- Temp-file path used by writeJSONLAtomically: the journal path with a
`.tmp.<pid>` suffix (bd-306). -/
def tmpPathOf (jsonlPath : String) (pid : Nat) : String :=
  jsonlPath ++ ".tmp." ++ toString pid

/-- Translation of writeJSONLAtomically: write everything to a sibling temp
file, then rename over the target.  A create failure leaves no temp file; an
encode/close failure or a rename failure removes the temp file and reports an
error; the target is only ever touched by the atomic rename.  The per-issue
encode loop and the close are collapsed into the single `writeOk` outcome. -/
def writeJSONLAtomically (enc : Issue → String) (env : FlushEnv) (jsonlPath : String)
    (issues : List Issue) : Except String Unit × List Event :=
  let tempPath := tmpPathOf jsonlPath env.pid
  if ¬ env.createTempOk then (.error "failed to create temp file", [])
  else if ¬ env.writeOk then
    (.error "failed to encode issue", [Event.writeFile tempPath "", Event.removeFile tempPath])
  else if ¬ env.renameOk then
    (.error "failed to rename file",
     [Event.writeFile tempPath (serializeIssues enc issues), Event.removeFile tempPath])
  else
    (.ok (),
     [Event.writeFile tempPath (serializeIssues enc issues), Event.renameFile tempPath jsonlPath])

/-- Translation of flushToJSONL: guard on store liveness and the dirty flag,
snapshot the dirty ids, merge the existing journal with the refreshed dirty
issues, write atomically, clear exactly the snapshot ids (a failed clear only
warns), store the hash of the re-read journal (a failed re-read or metadata
write only warns), and record success.  Any earlier error records a failure
and leaves the dirty ids uncleared. -/
def flushToJSONL (enc : Issue → String) (sha : String → String)
    (parse : String → Except String Issue) (env : FlushEnv) (jsonlPath : String) : List Event :=
  if ¬ env.storeActive then []
  else if ¬ env.isDirty then []
  else
    match env.dirtyResult with
    | .error e =>
      [Event.stderr ("Warning: auto-flush failed: failed to get dirty issues: " ++ e),
       Event.flushFailure]
    | .ok dirtyIDs =>
      if dirtyIDs.isEmpty then [Event.flushSuccess]
      else
        let readResult := readExistingJSONL parse env.existingJournal
        match fetchAndUpdateDirtyIssues env dirtyIDs readResult.1 with
        | .error e =>
          readResult.2 ++ [Event.stderr ("Warning: auto-flush failed: " ++ e), Event.flushFailure]
        | .ok mergedMap =>
          let issues := sortIssues (mergedMap.map (·.2))
          match writeJSONLAtomically enc env jsonlPath issues with
          | (.error e, wEvs) =>
            readResult.2 ++ wEvs ++
              [Event.stderr ("Warning: auto-flush failed: " ++ e), Event.flushFailure]
          | (.ok _, wEvs) =>
            let clearEvs :=
              if env.clearOk then [Event.clearDirty dirtyIDs]
              else [Event.stderr "Warning: failed to clear dirty issues"]
            let hashEvs :=
              if env.readBackOk then
                if env.setHashOk then
                  [Event.setMetadata "last_import_hash" (sha (serializeIssues enc issues))]
                else [Event.stderr "Warning: failed to update last_import_hash after export"]
              else []
            readResult.2 ++ wEvs ++ clearEvs ++ hashEvs ++ [Event.flushSuccess]

/-- Number of non-empty lines that fail to parse. -/
def countMalformed (parse : String → Except String Issue) (lines : List String) : Nat :=
  (lines.filter (fun l => !(l == "") && match parse l with | .error _ => true | .ok _ => false)).length

/-- Statement of the claimed closed_at preference order, written from the
spec's words for comparison with the source functions: incoming closed_at,
else incoming updated_at when present, else the current UTC time; null when
the status is not closed. -/
def specClosedAtPreference (now : Nat) (issue : Issue) : Option Nat :=
  if issue.status == "closed" then
    some (match issue.closedAt with
      | some v => v
      | none => if issue.updatedAt ≠ 0 then issue.updatedAt else now)
  else none

/-- Encoding of an optional closure time as an updates-map value. -/
def encodeOpt : Option Nat → FieldValue
  | some v => FieldValue.t v
  | none => FieldValue.null

/-- Trace contains a dirty-set clear. -/
def touchesDirty (tr : List Event) : Bool :=
  tr.any fun e => match e with
    | .clearDirty _ => true
    | _ => false

/-- Trace contains a filesystem operation. -/
def touchesFs (tr : List Event) : Bool :=
  tr.any Event.fsAction

theorem mutatesStore_append (t1 t2 : List Event) :
    mutatesStore (t1 ++ t2) = (mutatesStore t1 || mutatesStore t2) := by
  simp [mutatesStore, List.any_append]

theorem setsKey_append (t1 t2 : List Event) (k : String) :
    setsKey (t1 ++ t2) k = (setsKey t1 k || setsKey t2 k) := by
  simp [setsKey, List.any_append]

theorem touchesFs_append (t1 t2 : List Event) :
    touchesFs (t1 ++ t2) = (touchesFs t1 || touchesFs t2) := by
  simp [touchesFs, List.any_append]

theorem touchesDirty_append (t1 t2 : List Event) :
    touchesDirty (t1 ++ t2) = (touchesDirty t1 || touchesDirty t2) := by
  simp [touchesDirty, List.any_append]

theorem setsKey_eq_false_of_not_mutates (tr : List Event) (k : String)
    (h : mutatesStore tr = false) : setsKey tr k = false := by
  unfold mutatesStore at h
  unfold setsKey
  rw [List.any_eq_false] at h ⊢
  intro e he
  have := h e he
  cases e <;> simp_all [Event.isStoreMutation]

theorem runMetadata_append (md : List (String × String)) (t1 t2 : List Event) :
    runMetadata md (t1 ++ t2) = runMetadata (runMetadata md t1) t2 := by
  simp [runMetadata, List.foldl_append]

theorem runFs_append (fs : List (String × String)) (t1 t2 : List Event) :
    runFs fs (t1 ++ t2) = runFs (runFs fs t1) t2 := by
  simp [runFs, List.foldl_append]

theorem runDirty_append (d : List String) (t1 t2 : List Event) :
    runDirty (d) (t1 ++ t2) = runDirty (runDirty d t1) t2 := by
  simp [runDirty, List.foldl_append]

theorem runDirty_of_not_touches (d : List String) (tr : List Event)
    (h : touchesDirty tr = false) : runDirty d tr = d := by
  induction tr generalizing d with
  | nil => rfl
  | cons e t ih =>
    unfold touchesDirty at h
    rw [List.any_cons] at h
    simp only [Bool.or_eq_false_iff] at h
    have he := h.1
    have ht := h.2
    have : applyDirtyEvent d e = d := by
      cases e <;> simp_all [applyDirtyEvent]
    rw [runDirty, List.foldl_cons, this]
    exact ih d ht

theorem runFs_of_not_touches (fs : List (String × String)) (tr : List Event)
    (h : touchesFs tr = false) : runFs fs tr = fs := by
  induction tr generalizing fs with
  | nil => rfl
  | cons e t ih =>
    unfold touchesFs at h
    rw [List.any_cons] at h
    simp only [Bool.or_eq_false_iff] at h
    have : applyFsEvent fs e = fs := by
      cases e <;> simp_all [applyFsEvent, Event.fsAction]
    rw [runFs, List.foldl_cons, this]
    exact ih fs h.2

theorem runMetadata_of_stderr (md : List (String × String)) (tr : List Event)
    (h : ∀ e ∈ tr, ∃ m, e = Event.stderr m) : runMetadata md tr = md := by
  induction tr generalizing md with
  | nil => rfl
  | cons e t ih =>
    obtain ⟨m, rfl⟩ := h e (List.mem_cons_self e t)
    rw [runMetadata, List.foldl_cons]
    exact ih md (fun x hx => h x (List.mem_cons_of_mem _ hx))

theorem mdGet_mdSet_same (md : List (String × String)) (k v : String) :
    mdGet (mdSet md k v) k = some v := by
  simp [mdGet, mdSet, List.find?]

theorem fsGet_fsSet_same (fs : List (String × String)) (p c : String) :
    fsGet (fsSet fs p c) p = some c := by
  simp [fsGet, fsSet, List.find?]


theorem find?_key_filter_ne (l : List (String × String)) (p q : String) (h : ¬ p = q) :
    (l.filter (fun e => !(e.1 == p))).find? (fun e => e.1 == q) =
      l.find? (fun e => e.1 == q) := by
  induction l with
  | nil => rfl
  | cons e t ih =>
    rw [List.filter_cons]
    by_cases hep : e.1 = p
    · rw [if_neg (by simp [hep])]
      rw [ih]
      rw [List.find?_cons_of_neg (p := fun (x : String × String) => x.1 == q) t (by simp [hep, h])]
    · rw [if_pos (by simp [hep])]
      by_cases heq : e.1 = q
      · rw [List.find?_cons_of_pos (p := fun (x : String × String) => x.1 == q) _ (by simp [heq]),
          List.find?_cons_of_pos (p := fun (x : String × String) => x.1 == q) _ (by simp [heq])]
      · rw [List.find?_cons_of_neg (p := fun (x : String × String) => x.1 == q) _ (by simp [heq]),
          List.find?_cons_of_neg (p := fun (x : String × String) => x.1 == q) _ (by simp [heq])]
        exact ih

theorem fsGet_fsSet_ne (fs : List (String × String)) (p c q : String) (h : ¬ p = q) :
    fsGet (fsSet fs p c) q = fsGet fs q := by
  simp only [fsGet, fsSet]
  rw [List.find?_cons_of_neg (p := fun (x : String × String) => x.1 == q) _ (by simp [h]),
    find?_key_filter_ne fs p q h]

theorem fsGet_fsErase_same (fs : List (String × String)) (p : String) :
    fsGet (fsErase fs p) p = none := by
  simp only [fsGet, fsErase]
  have hn : (fs.filter (fun e => !(e.1 == p))).find? (fun e => e.1 == p) = none := by
    rw [List.find?_eq_none]
    intro x hx
    have hm := List.of_mem_filter hx
    simp only [Bool.not_eq_true'] at hm
    simp [hm]
  rw [hn]
  rfl

theorem fsGet_fsErase_ne (fs : List (String × String)) (p q : String) (h : ¬ p = q) :
    fsGet (fsErase fs p) q = fsGet fs q := by
  simp only [fsGet, fsErase]
  rw [find?_key_filter_ne fs p q h]

theorem validate_no_mutation (sha : String → String) (env : ImportEnv) :
    mutatesStore (validateJSONLHash sha env).2 = false := by
  unfold validateJSONLHash
  rcases hj : env.journal with _ | data
  · cases hd : env.debug <;> simp [mutatesStore, Event.isStoreMutation]
  · rcases hl : env.lastHashResult with h | e <;> dsimp only <;> split <;>
      cases hd : env.debug <;> simp [mutatesStore, Event.isStoreMutation]

theorem validate_stderr_only (sha : String → String) (env : ImportEnv) :
    ∀ e ∈ (validateJSONLHash sha env).2, ∃ m, e = Event.stderr m := by
  unfold validateJSONLHash
  rcases hj : env.journal with _ | data
  · cases hd : env.debug <;> simp
  · rcases hl : env.lastHashResult with h | e <;> dsimp only <;> split <;>
      cases hd : env.debug <;> simp

theorem validate_skip (sha : String → String) (env : ImportEnv) (data : String)
    (hj : env.journal = some data) (hh : env.lastHashResult = .ok (sha data)) :
    validateJSONLHash sha env =
      (none,
       if env.debug then
         [Event.stderr "Debug: auto-import skipped, JSONL unchanged (hash match)"]
       else []) := by
  unfold validateJSONLHash
  rw [hj, hh]
  simp

theorem validate_proceed (sha : String → String) (env : ImportEnv) (data h : String)
    (hj : env.journal = some data) (hh : env.lastHashResult = .ok h) (hne : sha data ≠ h) :
    validateJSONLHash sha env =
      (some (data, sha data),
       if env.debug then [Event.stderr "Debug: auto-import triggered (hash changed)"] else []) := by
  unfold validateJSONLHash
  rw [hj, hh]
  simp [hne]

theorem validate_gate_journal (sha : String → String) (env : ImportEnv) (d h : String)
    (hv : (validateJSONLHash sha env).1 = some (d, h)) :
    env.journal = some d ∧ h = sha d := by
  unfold validateJSONLHash at hv
  rcases hj : env.journal with _ | data
  · rw [hj] at hv
    simp at hv
  · rw [hj] at hv
    dsimp only at hv
    split at hv
    · simp at hv
    · simp only [Prod.fst] at hv
      injection hv with hv
      injection hv with h1 h2
      subst h1
      exact ⟨rfl, h2.symm⟩

/-- C10: when the journal file does not exist or cannot be read,
validateJSONLHash reports nothing to import and autoImportIfNewer returns
with no store mutation and no metadata change; the missing journal is
reported only as optional debug output (BD_DEBUG), never as a command
failure. -/
theorem C10_theorem (sha : String → String) (parse : String → Except String Issue)
    (env : ImportEnv) (hj : env.journal = none) :
    mutatesStore (autoImportIfNewer sha parse env) = false ∧
    autoImportIfNewer sha parse env =
      (if env.debug then [Event.stderr "Debug: auto-import skipped, JSONL not found"] else []) := by
  have hv : validateJSONLHash sha env =
      (none, if env.debug then [Event.stderr "Debug: auto-import skipped, JSONL not found"] else []) := by
    unfold validateJSONLHash
    rw [hj]
  unfold autoImportIfNewer
  rw [hv]
  refine ⟨?_, rfl⟩
  cases env.debug <;> simp [mutatesStore, Event.isStoreMutation]

/-- C10 witness: a concrete run with a missing journal and BD_DEBUG set. -/
theorem C10_witness :
    mutatesStore (autoImportIfNewer (fun s => "#" ++ s) (fun l => .ok { id := l })
      { journal := none, lastHashResult := .ok "", debug := true }) = false ∧
    autoImportIfNewer (fun s => "#" ++ s) (fun l => .ok { id := l })
      { journal := none, lastHashResult := .ok "", debug := true } =
      [Event.stderr "Debug: auto-import skipped, JSONL not found"] :=
  C10_theorem (fun s => "#" ++ s) (fun l => .ok { id := l })
    { journal := none, lastHashResult := .ok "", debug := true } rfl

/-- C2: before every auto-import the SHA-256 of the raw journal bytes is
compared with the stored last_import_hash: when they are equal the import is
skipped with no store mutation at all, and when the metadata read fails the
comparison proceeds with the empty last hash, so the hash gate still decides
to import the journal (first-import behaviour) instead of skipping or
aborting. -/
theorem C2_theorem (sha : String → String) (parse : String → Except String Issue)
    (env : ImportEnv) (data : String) :
    (env.journal = some data → env.lastHashResult = .ok (sha data) →
      mutatesStore (autoImportIfNewer sha parse env) = false ∧
      autoImportIfNewer sha parse env =
        (if env.debug then
           [Event.stderr "Debug: auto-import skipped, JSONL unchanged (hash match)"]
         else [])) ∧
    (env.journal = some data → (∃ e, env.lastHashResult = .error e) → sha data ≠ "" →
      (validateJSONLHash sha env).1 = some (data, sha data)) := by
  constructor
  · intro hj hh
    have hv := validate_skip sha env data hj hh
    unfold autoImportIfNewer
    rw [hv]
    refine ⟨?_, rfl⟩
    cases env.debug <;> simp [mutatesStore, Event.isStoreMutation]
  · rintro hj ⟨e, he⟩ hne
    unfold validateJSONLHash
    rw [hj, he]
    simp [hne]

/-- C2 witness: a matching hash skips with no mutation, and a metadata read
error still triggers the import. -/
theorem C2_witness :
    mutatesStore (autoImportIfNewer (fun s => "#" ++ s) (fun l => .ok { id := l })
      { journal := some "D", lastHashResult := .ok "#D", debug := false }) = false ∧
    (validateJSONLHash (fun s => "#" ++ s)
      { journal := some "D", lastHashResult := .error "boom", debug := false }).1 =
      some ("D", "#D") :=
  ⟨((C2_theorem (fun s => "#" ++ s) (fun l => .ok { id := l })
      { journal := some "D", lastHashResult := .ok "#D", debug := false } "D").1 rfl rfl).1,
   (C2_theorem (fun s => "#" ++ s) (fun l => .ok { id := l })
      { journal := some "D", lastHashResult := .error "boom", debug := false } "D").2 rfl
     ⟨"boom", rfl⟩ (by decide)⟩

/-- C3: whenever the journal contains a line that, after trimming, is a git
merge conflict marker, the auto-import performs no store mutation at all: no
entity is created or updated, no dependency is added, and last_import_hash is
left unchanged. -/
theorem C3_theorem (sha : String → String) (parse : String → Except String Issue)
    (env : ImportEnv) (data : String) (hj : env.journal = some data)
    (hc : checkMergeConflicts data = true) :
    mutatesStore (autoImportIfNewer sha parse env) = false := by
  unfold autoImportIfNewer
  rcases hv : validateJSONLHash sha env with ⟨gate, evs⟩
  have hevs : mutatesStore evs = false := by
    have := validate_no_mutation sha env
    rw [hv] at this
    exact this
  rcases gate with _ | ⟨d, h⟩
  · exact hevs
  · obtain ⟨hjd, _⟩ := validate_gate_journal sha env d h (by rw [hv])
    rw [hj] at hjd
    injection hjd with hd
    subst hd
    dsimp only
    rw [if_pos hc]
    rw [mutatesStore_append, hevs]
    simp [mutatesStore, Event.isStoreMutation]

/-- C3 witness: a concrete journal starting with a conflict marker line. -/
theorem C3_witness :
    mutatesStore (autoImportIfNewer (fun s => "#" ++ s) (fun l => .ok { id := l })
      { journal := some "<<<<<<< HEAD\nrest", lastHashResult := .ok "old", debug := false }) =
      false :=
  C3_theorem (fun s => "#" ++ s) (fun l => .ok { id := l })
    { journal := some "<<<<<<< HEAD\nrest", lastHashResult := .ok "old", debug := false }
    "<<<<<<< HEAD\nrest" rfl (by decide)

/-- C7 counterexample: an issue that is closed, has no closed_at, and has a
non-zero updated_at (5), written through the import create path at current
time 100.  The claim's preference order predicts closed_at = 5 (the incoming
updated_at); enforceClosedAtInvariant sets it to 100 (the current time),
skipping the updated_at preference. -/
theorem C7_counterexample :
    (enforceClosedAtInvariant 100 { id := "bd-5", status := "closed", updatedAt := 5 }).closedAt =
      some 100 ∧
    specClosedAtPreference 100 { id := "bd-5", status := "closed", updatedAt := 5 } = some 5 ∧
    (enforceClosedAtInvariant 100 { id := "bd-5", status := "closed", updatedAt := 5 }).closedAt ≠
      specClosedAtPreference 100 { id := "bd-5", status := "closed", updatedAt := 5 } := by
  refine ⟨rfl, rfl, ?_⟩
  decide

/-- C7 amended: on the update path (buildIssueUpdates) the closed_at entry of
the update map follows the claimed preference order exactly (incoming
closed_at, else non-zero incoming updated_at, else the current time; null
when not closed); on the create path (enforceClosedAtInvariant) an unset
closed_at of a closed issue is set directly to the current time — the
updated_at preference is not applied there — and a non-closed issue has
closed_at forced to null on both paths. -/
theorem C7_amended (now : Nat) (issue : Issue) :
    (buildIssueUpdates now issue).getLast? =
      some ("closed_at", encodeOpt (specClosedAtPreference now issue)) ∧
    (enforceClosedAtInvariant now issue).closedAt =
      (if issue.status == "closed" then some (issue.closedAt.getD now) else none) := by
  constructor
  · unfold buildIssueUpdates
    rw [List.getLast?_concat]
    unfold specClosedAtPreference encodeOpt
    by_cases hs : issue.status == "closed"
    · rw [if_pos hs, if_pos hs]
      cases hca : issue.closedAt with
      | none =>
        by_cases hu : issue.updatedAt ≠ 0
        · rw [if_pos hu, if_pos hu]
        · rw [if_neg hu, if_neg hu]
      | some v => rfl
    · rw [if_neg hs, if_neg hs]
  · unfold enforceClosedAtInvariant
    by_cases hs : issue.status == "closed"
    · rw [if_pos hs, if_pos hs]
      cases hca : issue.closedAt with
      | none => simp [hca]
      | some v => simp [hca]
    · rw [if_neg hs, if_neg hs]

theorem updatesId_append (t1 t2 : List Event) (id : String) :
    updatesId (t1 ++ t2) id = (updatesId t1 id || updatesId t2 id) := by
  simp [updatesId, List.any_append]

theorem updatesId_import_of_not_mem (env : ImportEnv) (l : List Issue) (id : String)
    (h : ∀ i ∈ l, ¬ i.id = id) :
    updatesId (importIssuesFromJSONL env l).2 id = false := by
  unfold importIssuesFromJSONL
  cases hs : env.searchForImport with
  | error e => simp [updatesId]
  | ok existing =>
    dsimp only
    induction l with
    | nil => simp [updatesId]
    | cons hd tl ih =>
      rw [List.flatMap_cons, updatesId_append]
      have hhd : ¬ hd.id = id := h hd (List.mem_cons_self hd tl)
      have h1 : updatesId
          (if (existing.map (fun i => i.id)).contains hd.id then
            match env.updateOutcome hd.id with
            | .ok _ => [Event.updateIssue hd.id (buildIssueUpdates env.now hd)]
            | .error _ => []
          else
            match env.createOutcome hd.id with
            | .ok _ => [Event.createIssue (enforceClosedAtInvariant env.now hd)]
            | .error _ => []) id = false := by
        split
        · cases env.updateOutcome hd.id <;> simp [updatesId, hhd]
        · cases env.createOutcome hd.id <;> simp [updatesId]
      rw [h1]
      rw [ih (fun i hi => h i (List.mem_cons_of_mem _ hi))]
      rfl

/-- Incoming issue used in the C1 collision scenario. -/
def issueC1 : Issue := { id := "bd-1", title := "Update docs", status := "open" }

/-- Existing store issue colliding with issueC1 on id. -/
def existingC1 : Issue := { id := "bd-1", title := "Add caching", status := "open" }

/-- Auto-import environment of the C1 scenario: one collision on bd-1 that
scores 100, with fresh-id allocation giving bd-2. -/
def envC1 : ImportEnv :=
  { journal := some "L1", lastHashResult := .ok "old", debug := false,
    detectResult := .ok [{ id := "bd-1", incomingIssue := issueC1, score := 0 }],
    searchForScoring := .ok [existingC1],
    scoreOf := fun _ => 100,
    freshIdOf := fun _ => "bd-2",
    searchForImport := .ok [existingC1] }

/-- C1 counterexample: a collision whose similarity score (100) is at or
above the threshold (50, for concreteness) is NOT merged into the existing
entity by an update — the auto-import run performs no UpdateIssue for bd-1 —
and it IS given a fresh id: the incoming entity is created as bd-2 and the
remap mapping records bd-1 to bd-2, contradicting the claim that only
below-threshold collisions are remapped. -/
theorem C1_counterexample :
    50 ≤ envC1.scoreOf "bd-1" ∧
    updatesId (autoImportIfNewer (fun _ => "new") (fun _ => .ok issueC1) envC1) "bd-1" = false ∧
    (autoImportIfNewer (fun _ => "new") (fun _ => .ok issueC1) envC1).contains
      (Event.createIssue { issueC1 with id := "bd-2" }) = true ∧
    (remapCollisionsModel envC1.freshIdOf
      (scoreCollisionsModel envC1.scoreOf
        [{ id := "bd-1", incomingIssue := issueC1, score := 0 }])).1.contains
      ("bd-1", "bd-2") = true := by
  decide

/-- C1 amended: collision resolution never consults the similarity score for
the merge/remap decision.  Every incoming entity whose id collides — at any
score — is removed from the import list by filterCollidingIssues (hence never
applied as an update by importIssuesFromJSONL) and is remapped to a fresh id
by the remap step. -/
theorem C1_amended (allIssues : List Issue) (cs : List CollisionDetail)
    (freshIdOf : String → String) (env : ImportEnv) (issue : Issue) (c : CollisionDetail)
    (hc : c ∈ cs) (hid : c.id = issue.id) :
    issue ∉ filterCollidingIssues allIssues cs ∧
    (c.id, freshIdOf c.id) ∈ (remapCollisionsModel freshIdOf cs).1 ∧
    updatesId (importIssuesFromJSONL env (filterCollidingIssues allIssues cs)).2 issue.id =
      false := by
  refine ⟨?_, ?_, ?_⟩
  · intro hmem
    unfold filterCollidingIssues at hmem
    have := List.of_mem_filter hmem
    simp only [Bool.not_eq_true'] at this
    rw [List.any_eq_false] at this
    exact absurd (by simp [hid]) (this c hc)
  · unfold remapCollisionsModel
    exact List.mem_map_of_mem (fun c => (c.id, freshIdOf c.id)) hc
  · apply updatesId_import_of_not_mem
    intro i hi
    unfold filterCollidingIssues at hi
    have := List.of_mem_filter hi
    simp only [Bool.not_eq_true'] at this
    rw [List.any_eq_false] at this
    intro hii
    exact absurd (by simp [hid, hii]) (this c hc)

/-- C1 amended witness: the concrete collision scenario of the
counterexample run through the amended statement. -/
theorem C1_amended_witness :
    issueC1 ∉ filterCollidingIssues [issueC1]
      [{ id := "bd-1", incomingIssue := issueC1, score := 100 }] ∧
    ("bd-1", "bd-2") ∈ (remapCollisionsModel (fun _ => "bd-2")
      [{ id := "bd-1", incomingIssue := issueC1, score := 100 }]).1 ∧
    updatesId (importIssuesFromJSONL envC1 (filterCollidingIssues [issueC1]
      [{ id := "bd-1", incomingIssue := issueC1, score := 100 }])).2 issueC1.id = false :=
  C1_amended [issueC1] [{ id := "bd-1", incomingIssue := issueC1, score := 100 }]
    (fun _ => "bd-2") envC1 issueC1 { id := "bd-1", incomingIssue := issueC1, score := 100 }
    (List.mem_cons_self _ _) rfl

theorem handleCollisions_setsKey (env : ImportEnv) (l : List Issue) (k : String) :
    setsKey (handleCollisions env l).2 k = false := by
  unfold handleCollisions
  cases env.detectResult with
  | error e => simp [setsKey]
  | ok collisions =>
    dsimp only
    split
    · simp [setsKey]
    · cases env.searchForScoring with
      | error e => simp [setsKey]
      | ok ex =>
        dsimp only
        cases env.scoreOutcome with
        | error e => simp [setsKey]
        | ok u =>
          dsimp only
          cases env.remapOutcome with
          | error e => simp [setsKey]
          | ok u2 =>
            dsimp only
            rw [setsKey_append]
            have h1 : setsKey (remapCollisionsModel env.freshIdOf
                (scoreCollisionsModel env.scoreOf collisions)).2 k = false := by
              unfold remapCollisionsModel setsKey
              rw [List.any_eq_false]
              intro x hx
              rw [List.mem_map] at hx
              obtain ⟨c, _, rfl⟩ := hx
              simp
            rw [h1]
            simp [setsKey]

/-- Issue used in the C6 scenario: a new id present only in the journal. -/
def issueC6 : Issue := { id := "bd-9", title := "t", status := "open" }

/-- Auto-import environment of the C6 scenario: no collisions, the entity is
new, and its CreateIssue call fails with a disk error while everything else
succeeds. -/
def envC6 : ImportEnv :=
  { journal := some "L1", lastHashResult := .ok "old", debug := false,
    createOutcome := fun _ => .error "disk full" }

/-- C6 counterexample: the CreateIssue upsert for bd-9 returns an error, yet
the import does not stop — the run still persists the new last_import_hash,
contradicting the claim that any entity upsert error aborts the import before
the hash is persisted. -/
theorem C6_counterexample :
    envC6.createOutcome "bd-9" = Except.error "disk full" ∧
    setsKey (autoImportIfNewer (fun _ => "new") (fun _ => .ok issueC6) envC6)
      "last_import_hash" = true := by
  exact ⟨rfl, by decide⟩

/-- C6 amended: an error from the batch existing-entity fetch (SearchIssues)
does abort the import without persisting a new last_import_hash, but
individual entity upsert errors are discarded (`_ =` in the source):
importIssuesFromJSONL reports success whatever the per-id upsert outcomes
are, so the pipeline continues and still persists the new hash. -/
theorem C6_amended (sha : String → String) (parse : String → Except String Issue)
    (env : ImportEnv) (data h e : String) (issues filtered : List Issue) (ev1 : List Event)
    (ex : List Issue) :
    (env.journal = some data → env.lastHashResult = .ok h → sha data ≠ h →
     checkMergeConflicts data = false → parseJSONLIssues parse data = .ok issues →
     env.isSqliteBackend = true → handleCollisions env issues = (.ok filtered, ev1) →
     env.searchForImport = .error e →
     setsKey (autoImportIfNewer sha parse env) "last_import_hash" = false) ∧
    (env.searchForImport = .ok ex → (importIssuesFromJSONL env filtered).1 = .ok ()) := by
  constructor
  · intro hj hh hne hcf hp hsql hhc hsi
    have hv := validate_proceed sha env data h hj hh hne
    unfold autoImportIfNewer
    rw [hv]
    dsimp only
    rw [if_neg (by simp [hcf]), hp]
    dsimp only
    rw [if_neg (by simp [hsql]), hhc]
    dsimp only
    have himp : importIssuesFromJSONL env filtered =
        (.error ("error fetching existing issues: " ++ e), []) := by
      unfold importIssuesFromJSONL
      rw [hsi]
    rw [himp]
    dsimp only
    rw [setsKey_append, setsKey_append, setsKey_append]
    have h0 : setsKey (if env.debug then
        [Event.stderr "Debug: auto-import triggered (hash changed)"] else []) "last_import_hash" =
        false := by
      cases env.debug <;> simp [setsKey]
    have h1 := handleCollisions_setsKey env issues "last_import_hash"
    rw [hhc] at h1
    rw [h0, h1]
    simp [setsKey]
  · intro hsi
    unfold importIssuesFromJSONL
    rw [hsi]

/-- C6 amended witness: a concrete abort on SearchIssues failure, and a
concrete success of importIssuesFromJSONL despite a failing upsert. -/
theorem C6_amended_witness :
    setsKey (autoImportIfNewer (fun _ => "new") (fun _ => .ok issueC6)
      { journal := some "L1", lastHashResult := .ok "old", debug := false,
        searchForImport := .error "db locked" }) "last_import_hash" = false ∧
    (importIssuesFromJSONL envC6 [issueC6]).1 = .ok () :=
  ⟨(C6_amended (fun _ => "new") (fun _ => .ok issueC6)
      { journal := some "L1", lastHashResult := .ok "old", debug := false,
        searchForImport := .error "db locked" }
      "L1" "old" "db locked" [issueC6] [issueC6] [] []).1
      rfl rfl (by decide) (by decide) rfl rfl rfl rfl,
   (C6_amended (fun _ => "new") (fun _ => .ok issueC6) envC6 "L1" "old" "x" [issueC6]
      [issueC6] [] []).2 rfl⟩

/-- Trace contains a metadata write. -/
def touchesMd (tr : List Event) : Bool :=
  tr.any fun e => match e with
    | .setMetadata _ _ => true
    | _ => false

theorem touchesMd_append (t1 t2 : List Event) :
    touchesMd (t1 ++ t2) = (touchesMd t1 || touchesMd t2) := by
  simp [touchesMd, List.any_append]

theorem runMetadata_of_not_touches (md : List (String × String)) (tr : List Event)
    (h : touchesMd tr = false) : runMetadata md tr = md := by
  induction tr generalizing md with
  | nil => rfl
  | cons e t ih =>
    unfold touchesMd at h
    rw [List.any_cons] at h
    simp only [Bool.or_eq_false_iff] at h
    have : applyMetadataEvent md e = md := by
      cases e <;> simp_all [applyMetadataEvent]
    rw [runMetadata, List.foldl_cons, this]
    exact ih md h.2

theorem stderr_only_touchesFs (tr : List Event) (h : ∀ e ∈ tr, ∃ m, e = Event.stderr m) :
    touchesFs tr = false := by
  unfold touchesFs
  rw [List.any_eq_false]
  intro e he
  obtain ⟨m, rfl⟩ := h e he
  simp [Event.fsAction]

theorem stderr_only_touchesDirty (tr : List Event) (h : ∀ e ∈ tr, ∃ m, e = Event.stderr m) :
    touchesDirty tr = false := by
  unfold touchesDirty
  rw [List.any_eq_false]
  intro e he
  obtain ⟨m, rfl⟩ := h e he
  simp

theorem stderr_only_touchesMd (tr : List Event) (h : ∀ e ∈ tr, ∃ m, e = Event.stderr m) :
    touchesMd tr = false := by
  unfold touchesMd
  rw [List.any_eq_false]
  intro e he
  obtain ⟨m, rfl⟩ := h e he
  simp

theorem readLines_stderr_only (parse : String → Except String Issue) :
    ∀ lines n m, ∀ e ∈ (readLines parse lines n m).2, ∃ msg, e = Event.stderr msg := by
  intro lines
  induction lines with
  | nil => intro n m e he; simp [readLines] at he
  | cons line rest ih =>
    intro n m e he
    unfold readLines at he
    by_cases hl : line == ""
    · rw [if_pos hl] at he
      exact ih _ _ e he
    · rw [if_neg hl] at he
      cases hp : parse line with
      | ok issue =>
        rw [hp] at he
        exact ih _ _ e he
      | error err =>
        rw [hp] at he
        dsimp only at he
        rcases List.mem_cons.mp he with rfl | hm
        · exact ⟨_, rfl⟩
        · exact ih _ _ e hm

theorem readExistingJSONL_stderr_only (parse : String → Except String Issue)
    (file : Option String) :
    ∀ e ∈ (readExistingJSONL parse file).2, ∃ msg, e = Event.stderr msg := by
  unfold readExistingJSONL
  cases file with
  | none => intro e he; simp at he
  | some data => exact readLines_stderr_only parse _ 0 []

theorem flush_success_trace (enc : Issue → String) (sha : String → String)
    (parse : String → Except String Issue) (env : FlushEnv) (path : String)
    (ids : List String) (m : List (String × Issue))
    (h1 : env.storeActive = true) (h2 : env.isDirty = true)
    (h3 : env.dirtyResult = .ok ids) (h4 : ids.isEmpty = false)
    (h5 : fetchAndUpdateDirtyIssues env ids (readExistingJSONL parse env.existingJournal).1 =
      .ok m)
    (h6 : env.createTempOk = true) (h7 : env.writeOk = true) (h8 : env.renameOk = true) :
    flushToJSONL enc sha parse env path =
      (readExistingJSONL parse env.existingJournal).2 ++
      ([Event.writeFile (tmpPathOf path env.pid)
          (serializeIssues enc (sortIssues (m.map (·.2)))),
        Event.renameFile (tmpPathOf path env.pid) path] ++
       ((if env.clearOk then [Event.clearDirty ids]
         else [Event.stderr "Warning: failed to clear dirty issues"]) ++
        ((if env.readBackOk then
            if env.setHashOk then
              [Event.setMetadata "last_import_hash"
                (sha (serializeIssues enc (sortIssues (m.map (·.2)))))]
            else [Event.stderr "Warning: failed to update last_import_hash after export"]
          else []) ++
         [Event.flushSuccess]))) := by
  unfold flushToJSONL
  rw [if_neg (by simp [h1]), if_neg (by simp [h2]), h3]
  dsimp only
  rw [if_neg (by simp [h4])]
  rw [h5]
  dsimp only
  have hw : writeJSONLAtomically enc env path (sortIssues (m.map (·.2))) =
      (.ok (),
       [Event.writeFile (tmpPathOf path env.pid)
          (serializeIssues enc (sortIssues (m.map (·.2)))),
        Event.renameFile (tmpPathOf path env.pid) path]) := by
    unfold writeJSONLAtomically
    rw [if_neg (by simp [h6]), if_neg (by simp [h7]), if_neg (by simp [h8])]
  rw [hw]
  dsimp only
  simp [List.append_assoc]

theorem flush_encodefail_trace (enc : Issue → String) (sha : String → String)
    (parse : String → Except String Issue) (env : FlushEnv) (path : String)
    (ids : List String) (m : List (String × Issue))
    (h1 : env.storeActive = true) (h2 : env.isDirty = true)
    (h3 : env.dirtyResult = .ok ids) (h4 : ids.isEmpty = false)
    (h5 : fetchAndUpdateDirtyIssues env ids (readExistingJSONL parse env.existingJournal).1 =
      .ok m)
    (h6 : env.createTempOk = true) (h7 : env.writeOk = false) :
    flushToJSONL enc sha parse env path =
      (readExistingJSONL parse env.existingJournal).2 ++
      ([Event.writeFile (tmpPathOf path env.pid) "",
        Event.removeFile (tmpPathOf path env.pid)] ++
       [Event.stderr "Warning: auto-flush failed: failed to encode issue", Event.flushFailure]) := by
  unfold flushToJSONL
  rw [if_neg (by simp [h1]), if_neg (by simp [h2]), h3]
  dsimp only
  rw [if_neg (by simp [h4])]
  rw [h5]
  dsimp only
  have hw : writeJSONLAtomically enc env path (sortIssues (m.map (·.2))) =
      (.error "failed to encode issue",
       [Event.writeFile (tmpPathOf path env.pid) "",
        Event.removeFile (tmpPathOf path env.pid)]) := by
    unfold writeJSONLAtomically
    rw [if_neg (by simp [h6]), if_pos (by simp [h7])]
  rw [hw]
  dsimp only
  rw [List.append_assoc]
  rfl

theorem flush_renamefail_trace (enc : Issue → String) (sha : String → String)
    (parse : String → Except String Issue) (env : FlushEnv) (path : String)
    (ids : List String) (m : List (String × Issue))
    (h1 : env.storeActive = true) (h2 : env.isDirty = true)
    (h3 : env.dirtyResult = .ok ids) (h4 : ids.isEmpty = false)
    (h5 : fetchAndUpdateDirtyIssues env ids (readExistingJSONL parse env.existingJournal).1 =
      .ok m)
    (h6 : env.createTempOk = true) (h7 : env.writeOk = true) (h8 : env.renameOk = false) :
    flushToJSONL enc sha parse env path =
      (readExistingJSONL parse env.existingJournal).2 ++
      ([Event.writeFile (tmpPathOf path env.pid)
          (serializeIssues enc (sortIssues (m.map (·.2)))),
        Event.removeFile (tmpPathOf path env.pid)] ++
       [Event.stderr "Warning: auto-flush failed: failed to rename file", Event.flushFailure]) := by
  unfold flushToJSONL
  rw [if_neg (by simp [h1]), if_neg (by simp [h2]), h3]
  dsimp only
  rw [if_neg (by simp [h4])]
  rw [h5]
  dsimp only
  have hw : writeJSONLAtomically enc env path (sortIssues (m.map (·.2))) =
      (.error "failed to rename file",
       [Event.writeFile (tmpPathOf path env.pid)
          (serializeIssues enc (sortIssues (m.map (·.2)))),
        Event.removeFile (tmpPathOf path env.pid)]) := by
    unfold writeJSONLAtomically
    rw [if_neg (by simp [h6]), if_neg (by simp [h7]), if_pos (by simp [h8])]
  rw [hw]
  dsimp only
  rw [List.append_assoc]
  rfl

theorem handleCollisions_touchesFs (env : ImportEnv) (l : List Issue) :
    touchesFs (handleCollisions env l).2 = false := by
  unfold handleCollisions
  cases env.detectResult with
  | error e => simp [touchesFs]
  | ok collisions =>
    dsimp only
    split
    · simp [touchesFs]
    · cases env.searchForScoring with
      | error e => simp [touchesFs]
      | ok ex =>
        dsimp only
        cases env.scoreOutcome with
        | error e => simp [touchesFs]
        | ok u =>
          dsimp only
          cases env.remapOutcome with
          | error e => simp [touchesFs]
          | ok u2 =>
            dsimp only
            rw [touchesFs_append]
            have h1 : touchesFs (remapCollisionsModel env.freshIdOf
                (scoreCollisionsModel env.scoreOf collisions)).2 = false := by
              unfold remapCollisionsModel touchesFs
              rw [List.any_eq_false]
              intro x hx
              rw [List.mem_map] at hx
              obtain ⟨c, _, rfl⟩ := hx
              simp [Event.fsAction]
            rw [h1]
            simp [touchesFs, Event.fsAction]

theorem importIssues_touchesFs (env : ImportEnv) (l : List Issue) :
    touchesFs (importIssuesFromJSONL env l).2 = false := by
  unfold importIssuesFromJSONL
  cases env.searchForImport with
  | error e => simp [touchesFs]
  | ok existing =>
    dsimp only
    unfold touchesFs
    rw [List.any_flatMap, List.any_eq_false]
    intro i _
    split
    · cases env.updateOutcome i.id <;> simp [Event.fsAction]
    · cases env.createOutcome i.id <;> simp [Event.fsAction]

theorem importDeps_touchesFs (env : ImportEnv) (l : List Issue) :
    touchesFs (importDependenciesFromJSONL env l) = false := by
  unfold importDependenciesFromJSONL touchesFs
  simp only [List.any_flatMap, List.any_eq_false]
  intro i _
  simp only [Bool.not_eq_true]
  split
  · simp
  · cases env.depsOf i.id with
    | error e => simp
    | ok existingDeps =>
      dsimp only
      simp only [List.any_flatMap, List.any_eq_false]
      intro dep _
      simp only [Bool.not_eq_true]
      split
      · simp
      · cases env.addDepOutcome i.id dep.dependsOnID dep.depType <;> simp [Event.fsAction]

theorem importIssues_ok (env : ImportEnv) (l : List Issue) (ex : List Issue)
    (hsi : env.searchForImport = .ok ex) :
    importIssuesFromJSONL env l = (.ok (), (importIssuesFromJSONL env l).2) := by
  unfold importIssuesFromJSONL
  rw [hsi]

theorem autoImport_success_trace (sha : String → String) (parse : String → Except String Issue)
    (env : ImportEnv) (data h : String) (issues filtered : List Issue) (ev1 ev2 : List Event)
    (hj : env.journal = some data) (hh : env.lastHashResult = .ok h) (hne : sha data ≠ h)
    (hcf : checkMergeConflicts data = false) (hp : parseJSONLIssues parse data = .ok issues)
    (hsql : env.isSqliteBackend = true) (hhc : handleCollisions env issues = (.ok filtered, ev1))
    (himp : importIssuesFromJSONL env filtered = (.ok (), ev2))
    (hset : env.setHashOutcome = .ok ()) :
    autoImportIfNewer sha parse env =
      (if env.debug then [Event.stderr "Debug: auto-import triggered (hash changed)"] else []) ++
      ev1 ++ ev2 ++ importDependenciesFromJSONL env filtered ++
      [Event.setMetadata "last_import_hash" (sha data)] := by
  unfold autoImportIfNewer
  rw [validate_proceed sha env data h hj hh hne]
  dsimp only
  rw [if_neg (by simp [hcf]), hp]
  dsimp only
  rw [if_neg (by simp [hsql]), hhc]
  dsimp only
  rw [himp]
  dsimp only
  rw [hset]

/-- Issue used in the C4/C5 flush scenarios. -/
def issueC4 : Issue := { id := "bd-1", title := "t", status := "open" }

/-- Flush environment of the C4 counterexample: everything succeeds except
the final metadata write of the exported hash. -/
def envC4 : FlushEnv :=
  { dirtyResult := .ok ["bd-1"], getIssue := fun _ => .ok (some issueC4),
    setHashOk := false }

/-- C4 counterexample: a flush whose last_import_hash write fails still
reports success (recordFlushSuccess); afterwards the journal file holds the
newly written content, but the stored last_import_hash is the stale old value
and does not equal the hash of the journal bytes — so a successful flush does
not guarantee that the hash was written back. -/
theorem C4_counterexample :
    (flushToJSONL (fun i => i.id) (fun s => "#" ++ s) (fun l => .ok { id := l }) envC4
        "j").contains Event.flushSuccess = true ∧
    fsGet (runFs [("j", "OLD")] (flushToJSONL (fun i => i.id) (fun s => "#" ++ s)
        (fun l => .ok { id := l }) envC4 "j")) "j" = some "bd-1\n" ∧
    mdGet (runMetadata [("last_import_hash", "old")] (flushToJSONL (fun i => i.id)
        (fun s => "#" ++ s) (fun l => .ok { id := l }) envC4 "j")) "last_import_hash" =
      some "old" ∧
    ¬ ((fun s => "#" ++ s) "bd-1\n" = "old") := by
  refine ⟨by decide, by decide, by decide, by decide⟩

/-- C4 amended: after a flush in which the write, rename, journal re-read and
metadata write all succeed, the stored last_import_hash equals the hash of
the journal file's bytes; after an auto-import whose final SetMetadata
succeeds, the stored last_import_hash equals the hash of the (untouched)
journal bytes.  A flush can report success even when the hash write fails,
in which case the old hash remains (see the counterexample). -/
theorem C4_amended (enc : Issue → String) (sha : String → String)
    (parse : String → Except String Issue) (env : FlushEnv) (path : String)
    (fs md : List (String × String)) (ids : List String) (m : List (String × Issue))
    (envI : ImportEnv) (mdI : List (String × String)) (data h : String)
    (issues filtered : List Issue) (ev1 : List Event) (ex : List Issue) :
    (env.storeActive = true → env.isDirty = true → env.dirtyResult = .ok ids →
     ids.isEmpty = false →
     fetchAndUpdateDirtyIssues env ids (readExistingJSONL parse env.existingJournal).1 =
       .ok m →
     env.createTempOk = true → env.writeOk = true → env.renameOk = true →
     env.readBackOk = true → env.setHashOk = true →
     ∃ content,
       fsGet (runFs fs (flushToJSONL enc sha parse env path)) path = some content ∧
       mdGet (runMetadata md (flushToJSONL enc sha parse env path)) "last_import_hash" =
         some (sha content)) ∧
    (envI.journal = some data → envI.lastHashResult = .ok h → sha data ≠ h →
     checkMergeConflicts data = false → parseJSONLIssues parse data = .ok issues →
     envI.isSqliteBackend = true → handleCollisions envI issues = (.ok filtered, ev1) →
     envI.searchForImport = .ok ex → envI.setHashOutcome = .ok () →
     mdGet (runMetadata mdI (autoImportIfNewer sha parse envI)) "last_import_hash" =
       some (sha data) ∧
     touchesFs (autoImportIfNewer sha parse envI) = false) := by
  constructor
  · intro h1 h2 h3 h4 h5 h6 h7 h8 h9 h10
    rw [flush_success_trace enc sha parse env path ids m h1 h2 h3 h4 h5 h6 h7 h8]
    have hhash : (if env.readBackOk then
        (if env.setHashOk then
          [Event.setMetadata "last_import_hash"
            (sha (serializeIssues enc (sortIssues (m.map (·.2)))))]
         else [Event.stderr "Warning: failed to update last_import_hash after export"])
        else ([] : List Event)) =
        [Event.setMetadata "last_import_hash"
          (sha (serializeIssues enc (sortIssues (m.map (·.2)))))] := by
      rw [if_pos (by simp [h9])]
      rw [if_pos (by simp [h10])]
    rw [hhash]
    refine ⟨serializeIssues enc (sortIssues (m.map (·.2))), ?_, ?_⟩
    · rw [runFs_append]
      rw [runFs_of_not_touches _ _ (stderr_only_touchesFs _
        (readExistingJSONL_stderr_only parse env.existingJournal))]
      rw [runFs_append]
      have hwr : runFs fs [Event.writeFile (tmpPathOf path env.pid)
            (serializeIssues enc (sortIssues (m.map (·.2)))),
          Event.renameFile (tmpPathOf path env.pid) path] =
          fsSet (fsErase (fsSet fs (tmpPathOf path env.pid)
            (serializeIssues enc (sortIssues (m.map (·.2))))) (tmpPathOf path env.pid)) path
            (serializeIssues enc (sortIssues (m.map (·.2)))) := by
        simp only [runFs, List.foldl_cons, List.foldl_nil, applyFsEvent]
        rw [fsGet_fsSet_same]
      rw [hwr]
      have hrest : touchesFs ((if env.clearOk then [Event.clearDirty ids]
          else [Event.stderr "Warning: failed to clear dirty issues"]) ++
          ([Event.setMetadata "last_import_hash"
              (sha (serializeIssues enc (sortIssues (m.map (·.2)))))] ++
           [Event.flushSuccess])) = false := by
        rw [touchesFs_append]
        have hc : touchesFs (if env.clearOk then [Event.clearDirty ids]
            else [Event.stderr "Warning: failed to clear dirty issues"]) = false := by
          split <;> simp [touchesFs, Event.fsAction]
        rw [hc]
        simp [touchesFs, Event.fsAction]
      rw [runFs_of_not_touches _ _ hrest]
      exact fsGet_fsSet_same _ _ _
    · rw [runMetadata_append, runMetadata_append, runMetadata_append]
      rw [show ([Event.setMetadata "last_import_hash"
            (sha (serializeIssues enc (sortIssues (m.map (·.2)))))] ++
          [Event.flushSuccess]) =
          [Event.setMetadata "last_import_hash"
            (sha (serializeIssues enc (sortIssues (m.map (·.2))))), Event.flushSuccess] from rfl]
      simp only [runMetadata, List.foldl_cons, List.foldl_nil, applyMetadataEvent]
      exact mdGet_mdSet_same _ _ _
  · intro hj hh hne hcf hp hsql hhc hsi hset
    have himp := importIssues_ok envI filtered ex hsi
    have hsh := autoImport_success_trace sha parse envI data h issues filtered ev1
      (importIssuesFromJSONL envI filtered).2 hj hh hne hcf hp hsql hhc himp hset
    constructor
    · rw [hsh]
      rw [runMetadata_append]
      simp only [runMetadata, List.foldl_cons, List.foldl_nil, applyMetadataEvent]
      exact mdGet_mdSet_same _ _ _
    · rw [hsh]
      rw [touchesFs_append, touchesFs_append, touchesFs_append, touchesFs_append]
      have h0 : touchesFs (if envI.debug then
          [Event.stderr "Debug: auto-import triggered (hash changed)"] else []) = false := by
        split <;> simp [touchesFs, Event.fsAction]
      have h1 := handleCollisions_touchesFs envI issues
      rw [hhc] at h1
      have h2 := importIssues_touchesFs envI filtered
      rw [h0, h1, h2, importDeps_touchesFs]
      simp [touchesFs, Event.fsAction]

/-- C4 amended witness: a fully successful concrete flush, and a concrete
auto-import, both ending with last_import_hash equal to the journal hash. -/
theorem C4_amended_witness :
    (∃ content,
       fsGet (runFs [("j", "OLD")] (flushToJSONL (fun i => i.id) (fun s => "#" ++ s)
           (fun l => .ok { id := l })
           { dirtyResult := .ok ["bd-1"], getIssue := fun _ => .ok (some issueC4) } "j")) "j" =
         some content ∧
       mdGet (runMetadata [("last_import_hash", "old")] (flushToJSONL (fun i => i.id)
           (fun s => "#" ++ s) (fun l => .ok { id := l })
           { dirtyResult := .ok ["bd-1"], getIssue := fun _ => .ok (some issueC4) } "j"))
         "last_import_hash" = some ((fun s => "#" ++ s) content)) ∧
    (mdGet (runMetadata [] (autoImportIfNewer (fun s => "#" ++ s) (fun l => .ok { id := l })
        { journal := some "L1", lastHashResult := .ok "old", debug := false }))
      "last_import_hash" = some ((fun s => "#" ++ s) "L1") ∧
     touchesFs (autoImportIfNewer (fun s => "#" ++ s) (fun l => .ok { id := l })
        { journal := some "L1", lastHashResult := .ok "old", debug := false }) = false) :=
  ⟨(C4_amended (fun i => i.id) (fun s => "#" ++ s) (fun l => .ok { id := l })
      { dirtyResult := .ok ["bd-1"], getIssue := fun _ => .ok (some issueC4) } "j"
      [("j", "OLD")] [("last_import_hash", "old")] ["bd-1"] [("bd-1", issueC4)]
      { journal := some "L1", lastHashResult := .ok "old", debug := false } []
      "L1" "old" [{ id := "L1" }] [{ id := "L1" }] [] []).1
      rfl rfl rfl (by decide) rfl rfl rfl rfl rfl rfl,
   (C4_amended (fun i => i.id) (fun s => "#" ++ s) (fun l => .ok { id := l })
      { dirtyResult := .ok ["bd-1"], getIssue := fun _ => .ok (some issueC4) } "j"
      [("j", "OLD")] [("last_import_hash", "old")] ["bd-1"] [("bd-1", issueC4)]
      { journal := some "L1", lastHashResult := .ok "old", debug := false } []
      "L1" "old" [{ id := "L1" }] [{ id := "L1" }] [] []).2
      rfl rfl (by decide) (by decide) rfl rfl rfl rfl rfl⟩

/-- Flush environment of the C5 counterexample: everything succeeds except
ClearDirtyIssuesByID. -/
def envC5 : FlushEnv :=
  { dirtyResult := .ok ["bd-1"], getIssue := fun _ => .ok (some issueC4),
    clearOk := false }

/-- C5 counterexample: a flush whose ClearDirtyIssuesByID call fails still
reports success (the failure only warns), and the snapshot id bd-1 remains in
the dirty set — so a flush that succeeds does not always clear the snapshot
ids, contrary to the claim. -/
theorem C5_counterexample :
    (flushToJSONL (fun i => i.id) (fun s => "#" ++ s) (fun l => .ok { id := l }) envC5
        "j").contains Event.flushSuccess = true ∧
    runDirty ["bd-1"] (flushToJSONL (fun i => i.id) (fun s => "#" ++ s)
        (fun l => .ok { id := l }) envC5 "j") = ["bd-1"] := by
  refine ⟨by decide, by decide⟩

theorem runFs_write_remove (fs : List (String × String)) (tmp c : String) :
    runFs fs [Event.writeFile tmp c, Event.removeFile tmp] = fsErase (fsSet fs tmp c) tmp := by
  simp only [runFs, List.foldl_cons, List.foldl_nil, applyFsEvent]

/-- C5 amended: when the temp-file write or the rename fails, the temp file
is removed, the prior journal is intact, and the dirty set is untouched (so a
later flush sees the same dirty ids); when the flush succeeds and the
dirty-clear call itself succeeds, exactly the snapshot ids are removed from
the dirty set, so ids marked dirty after the snapshot remain dirty.  A
failing clear call leaves the flush reporting success with nothing cleared
(see the counterexample). -/
theorem C5_amended (enc : Issue → String) (sha : String → String)
    (parse : String → Except String Issue) (env : FlushEnv) (path : String)
    (fs : List (String × String)) (d ids : List String) (m : List (String × Issue))
    (htmp : ¬ tmpPathOf path env.pid = path) :
    (env.storeActive = true → env.isDirty = true → env.dirtyResult = .ok ids →
     ids.isEmpty = false →
     fetchAndUpdateDirtyIssues env ids (readExistingJSONL parse env.existingJournal).1 =
       .ok m →
     env.createTempOk = true → env.writeOk = false →
     fsGet (runFs fs (flushToJSONL enc sha parse env path)) path = fsGet fs path ∧
     fsGet (runFs fs (flushToJSONL enc sha parse env path)) (tmpPathOf path env.pid) = none ∧
     runDirty d (flushToJSONL enc sha parse env path) = d) ∧
    (env.storeActive = true → env.isDirty = true → env.dirtyResult = .ok ids →
     ids.isEmpty = false →
     fetchAndUpdateDirtyIssues env ids (readExistingJSONL parse env.existingJournal).1 =
       .ok m →
     env.createTempOk = true → env.writeOk = true → env.renameOk = false →
     fsGet (runFs fs (flushToJSONL enc sha parse env path)) path = fsGet fs path ∧
     fsGet (runFs fs (flushToJSONL enc sha parse env path)) (tmpPathOf path env.pid) = none ∧
     runDirty d (flushToJSONL enc sha parse env path) = d) ∧
    (env.storeActive = true → env.isDirty = true → env.dirtyResult = .ok ids →
     ids.isEmpty = false →
     fetchAndUpdateDirtyIssues env ids (readExistingJSONL parse env.existingJournal).1 =
       .ok m →
     env.createTempOk = true → env.writeOk = true → env.renameOk = true →
     env.clearOk = true →
     runDirty d (flushToJSONL enc sha parse env path) =
       d.filter (fun x => !(ids.contains x))) := by
  refine ⟨?_, ?_, ?_⟩
  · intro h1 h2 h3 h4 h5 h6 h7
    rw [flush_encodefail_trace enc sha parse env path ids m h1 h2 h3 h4 h5 h6 h7]
    have hA := readExistingJSONL_stderr_only parse env.existingJournal
    refine ⟨?_, ?_, ?_⟩
    · rw [runFs_append, runFs_of_not_touches _ _ (stderr_only_touchesFs _ hA), runFs_append,
        runFs_write_remove]
      rw [runFs_of_not_touches _ _ (by simp [touchesFs, Event.fsAction])]
      rw [fsGet_fsErase_ne _ _ _ htmp, fsGet_fsSet_ne _ _ _ _ htmp]
    · rw [runFs_append, runFs_of_not_touches _ _ (stderr_only_touchesFs _ hA), runFs_append,
        runFs_write_remove]
      rw [runFs_of_not_touches _ _ (by simp [touchesFs, Event.fsAction])]
      exact fsGet_fsErase_same _ _
    · rw [runDirty_append, runDirty_of_not_touches _ _ (stderr_only_touchesDirty _ hA)]
      rw [runDirty_of_not_touches _ _ (by simp [touchesDirty])]
  · intro h1 h2 h3 h4 h5 h6 h7 h8
    rw [flush_renamefail_trace enc sha parse env path ids m h1 h2 h3 h4 h5 h6 h7 h8]
    have hA := readExistingJSONL_stderr_only parse env.existingJournal
    refine ⟨?_, ?_, ?_⟩
    · rw [runFs_append, runFs_of_not_touches _ _ (stderr_only_touchesFs _ hA), runFs_append,
        runFs_write_remove]
      rw [runFs_of_not_touches _ _ (by simp [touchesFs, Event.fsAction])]
      rw [fsGet_fsErase_ne _ _ _ htmp, fsGet_fsSet_ne _ _ _ _ htmp]
    · rw [runFs_append, runFs_of_not_touches _ _ (stderr_only_touchesFs _ hA), runFs_append,
        runFs_write_remove]
      rw [runFs_of_not_touches _ _ (by simp [touchesFs, Event.fsAction])]
      exact fsGet_fsErase_same _ _
    · rw [runDirty_append, runDirty_of_not_touches _ _ (stderr_only_touchesDirty _ hA)]
      rw [runDirty_of_not_touches _ _ (by simp [touchesDirty])]
  · intro h1 h2 h3 h4 h5 h6 h7 h8 hclear
    rw [flush_success_trace enc sha parse env path ids m h1 h2 h3 h4 h5 h6 h7 h8]
    rw [if_pos (by simp [hclear])]
    have hA := readExistingJSONL_stderr_only parse env.existingJournal
    rw [runDirty_append, runDirty_append, runDirty_append]
    have s1 : runDirty d (readExistingJSONL parse env.existingJournal).2 = d :=
      runDirty_of_not_touches _ _ (stderr_only_touchesDirty _ hA)
    rw [s1]
    have s2 : runDirty d [Event.writeFile (tmpPathOf path env.pid)
        (serializeIssues enc (sortIssues (m.map (·.2)))),
        Event.renameFile (tmpPathOf path env.pid) path] = d := by
      simp only [runDirty, List.foldl_cons, List.foldl_nil, applyDirtyEvent]
    rw [s2]
    have hmid : runDirty d [Event.clearDirty ids] = d.filter (fun x => !(ids.contains x)) := by
      simp only [runDirty, List.foldl_cons, List.foldl_nil, applyDirtyEvent]
    rw [hmid]
    have hrest : touchesDirty ((if env.readBackOk then
        (if env.setHashOk then
          [Event.setMetadata "last_import_hash"
            (sha (serializeIssues enc (sortIssues (m.map (·.2)))))]
         else [Event.stderr "Warning: failed to update last_import_hash after export"])
        else ([] : List Event)) ++ [Event.flushSuccess]) = false := by
      rw [touchesDirty_append]
      have hh : touchesDirty (if env.readBackOk then
          (if env.setHashOk then
            [Event.setMetadata "last_import_hash"
              (sha (serializeIssues enc (sortIssues (m.map (·.2)))))]
           else [Event.stderr "Warning: failed to update last_import_hash after export"])
          else ([] : List Event)) = false := by
        split
        · split <;> simp [touchesDirty]
        · simp [touchesDirty]
      rw [hh]
      simp [touchesDirty]
    rw [runDirty_of_not_touches _ _ hrest]

/-- C5 amended witness: concrete encode-failure, rename-failure, and
successful flush runs with one dirty id and a second id dirtied after the
snapshot. -/
theorem C5_amended_witness :
    (fsGet (runFs [("j", "OLD")] (flushToJSONL (fun i => i.id) (fun s => "#" ++ s)
        (fun l => .ok { id := l })
        { dirtyResult := .ok ["bd-1"], getIssue := fun _ => .ok (some issueC4),
          writeOk := false } "j")) "j" = fsGet [("j", "OLD")] "j" ∧
     fsGet (runFs [("j", "OLD")] (flushToJSONL (fun i => i.id) (fun s => "#" ++ s)
        (fun l => .ok { id := l })
        { dirtyResult := .ok ["bd-1"], getIssue := fun _ => .ok (some issueC4),
          writeOk := false } "j")) (tmpPathOf "j" 1) = none ∧
     runDirty ["bd-1", "bd-2"] (flushToJSONL (fun i => i.id) (fun s => "#" ++ s)
        (fun l => .ok { id := l })
        { dirtyResult := .ok ["bd-1"], getIssue := fun _ => .ok (some issueC4),
          writeOk := false } "j") = ["bd-1", "bd-2"]) ∧
    (runDirty ["bd-1", "bd-2"] (flushToJSONL (fun i => i.id) (fun s => "#" ++ s)
        (fun l => .ok { id := l })
        { dirtyResult := .ok ["bd-1"], getIssue := fun _ => .ok (some issueC4),
          renameOk := false } "j") = ["bd-1", "bd-2"]) ∧
    (runDirty ["bd-1", "bd-2"] (flushToJSONL (fun i => i.id) (fun s => "#" ++ s)
        (fun l => .ok { id := l })
        { dirtyResult := .ok ["bd-1"], getIssue := fun _ => .ok (some issueC4) } "j") =
      ["bd-1", "bd-2"].filter (fun x => !(["bd-1"].contains x))) :=
  ⟨(C5_amended (fun i => i.id) (fun s => "#" ++ s) (fun l => .ok { id := l })
      { dirtyResult := .ok ["bd-1"], getIssue := fun _ => .ok (some issueC4),
        writeOk := false } "j" [("j", "OLD")] ["bd-1", "bd-2"] ["bd-1"]
      [("bd-1", issueC4)] (by decide)).1
      rfl rfl rfl (by decide) rfl rfl rfl,
   ((C5_amended (fun i => i.id) (fun s => "#" ++ s) (fun l => .ok { id := l })
      { dirtyResult := .ok ["bd-1"], getIssue := fun _ => .ok (some issueC4),
        renameOk := false } "j" [("j", "OLD")] ["bd-1", "bd-2"] ["bd-1"]
      [("bd-1", issueC4)] (by decide)).2.1
      rfl rfl rfl (by decide) rfl rfl rfl rfl).2.2,
   ((C5_amended (fun i => i.id) (fun s => "#" ++ s) (fun l => .ok { id := l })
      { dirtyResult := .ok ["bd-1"], getIssue := fun _ => .ok (some issueC4) } "j"
      [("j", "OLD")] ["bd-1", "bd-2"] ["bd-1"] [("bd-1", issueC4)] (by decide)).2.2
      rfl rfl rfl (by decide) rfl rfl rfl rfl rfl)⟩

theorem flush_success_fsGet (enc : Issue → String) (sha : String → String)
    (parse : String → Except String Issue) (env : FlushEnv) (path : String)
    (fs : List (String × String)) (ids : List String) (m : List (String × Issue))
    (h1 : env.storeActive = true) (h2 : env.isDirty = true)
    (h3 : env.dirtyResult = .ok ids) (h4 : ids.isEmpty = false)
    (h5 : fetchAndUpdateDirtyIssues env ids (readExistingJSONL parse env.existingJournal).1 =
      .ok m)
    (h6 : env.createTempOk = true) (h7 : env.writeOk = true) (h8 : env.renameOk = true) :
    fsGet (runFs fs (flushToJSONL enc sha parse env path)) path =
      some (serializeIssues enc (sortIssues (m.map (·.2)))) := by
  rw [flush_success_trace enc sha parse env path ids m h1 h2 h3 h4 h5 h6 h7 h8]
  rw [runFs_append]
  rw [runFs_of_not_touches _ _ (stderr_only_touchesFs _
    (readExistingJSONL_stderr_only parse env.existingJournal))]
  rw [runFs_append]
  have hwr : runFs fs [Event.writeFile (tmpPathOf path env.pid)
        (serializeIssues enc (sortIssues (m.map (·.2)))),
      Event.renameFile (tmpPathOf path env.pid) path] =
      fsSet (fsErase (fsSet fs (tmpPathOf path env.pid)
        (serializeIssues enc (sortIssues (m.map (·.2))))) (tmpPathOf path env.pid)) path
        (serializeIssues enc (sortIssues (m.map (·.2)))) := by
    simp only [runFs, List.foldl_cons, List.foldl_nil, applyFsEvent]
    rw [fsGet_fsSet_same]
  rw [hwr]
  have hrest : touchesFs ((if env.clearOk then [Event.clearDirty ids]
      else [Event.stderr "Warning: failed to clear dirty issues"]) ++
      ((if env.readBackOk then
          (if env.setHashOk then
            [Event.setMetadata "last_import_hash"
              (sha (serializeIssues enc (sortIssues (m.map (·.2)))))]
           else [Event.stderr "Warning: failed to update last_import_hash after export"])
        else ([] : List Event)) ++
       [Event.flushSuccess])) = false := by
    rw [touchesFs_append, touchesFs_append]
    have hc : touchesFs (if env.clearOk then [Event.clearDirty ids]
        else [Event.stderr "Warning: failed to clear dirty issues"]) = false := by
      split <;> simp [touchesFs, Event.fsAction]
    have hh : touchesFs (if env.readBackOk then
        (if env.setHashOk then
          [Event.setMetadata "last_import_hash"
            (sha (serializeIssues enc (sortIssues (m.map (·.2)))))]
         else [Event.stderr "Warning: failed to update last_import_hash after export"])
        else ([] : List Event)) = false := by
      split
      · split <;> simp [touchesFs, Event.fsAction]
      · simp [touchesFs]
    rw [hc, hh]
    simp [touchesFs, Event.fsAction]
  rw [runFs_of_not_touches _ _ hrest]
  exact fsGet_fsSet_same _ _ _

/-- Strict id order used for the determinism argument: at-most order plus
distinct ids. -/
def idLt (a b : Issue) : Prop := idLe a b ∧ ¬ a.id = b.id

instance : IsAntisymm Issue idLt :=
  ⟨fun a b h₁ h₂ => absurd (idLe_antisymm_ids a b h₁.1 h₂.1) h₁.2⟩

theorem sortIssues_sorted (l : List Issue) : List.Sorted idLe (sortIssues l) :=
  List.sorted_insertionSort idLe l

theorem sortIssues_perm (l : List Issue) : (sortIssues l).Perm l :=
  List.perm_insertionSort idLe l

theorem sortIssues_eq_of_perm (l₁ l₂ : List Issue) (hp : l₁.Perm l₂)
    (hnd : (l₁.map Issue.id).Nodup) : sortIssues l₁ = sortIssues l₂ := by
  have hp' : (sortIssues l₁).Perm (sortIssues l₂) :=
    (sortIssues_perm l₁).trans (hp.trans (sortIssues_perm l₂).symm)
  have hnd₁ : ((sortIssues l₁).map Issue.id).Nodup :=
    (((sortIssues_perm l₁).map Issue.id).nodup_iff).mpr hnd
  have hnd₂ : ((sortIssues l₂).map Issue.id).Nodup :=
    ((((sortIssues_perm l₂).map Issue.id).trans (hp.symm.map Issue.id)).nodup_iff).mpr hnd
  have hs₁ : List.Sorted idLt (sortIssues l₁) := by
    have hpw : (sortIssues l₁).Pairwise (fun a b => ¬ a.id = b.id) := by
      rw [List.Nodup, List.pairwise_map] at hnd₁
      exact hnd₁.imp (fun h => h)
    exact ((sortIssues_sorted l₁).and hpw).imp (fun h => h)
  have hs₂ : List.Sorted idLt (sortIssues l₂) := by
    have hpw : (sortIssues l₂).Pairwise (fun a b => ¬ a.id = b.id) := by
      rw [List.Nodup, List.pairwise_map] at hnd₂
      exact hnd₂.imp (fun h => h)
    exact ((sortIssues_sorted l₂).and hpw).imp (fun h => h)
  exact List.eq_of_perm_of_sorted hp' hs₁ hs₂

/-- C8: every journal produced by a successful flush serializes the merged
entity map sorted ascending (lexicographically) by id, and two flushes whose
merged maps hold the same set of entities (with distinct ids) write journals
with the same line order — indeed byte-identical content under the same
encoder. -/
theorem C8_theorem (enc : Issue → String) (sha₁ sha₂ : String → String)
    (parse₁ parse₂ : String → Except String Issue) (env₁ env₂ : FlushEnv)
    (path : String) (fs₁ fs₂ : List (String × String)) (ids₁ ids₂ : List String)
    (m₁ m₂ : List (String × Issue))
    (ha1 : env₁.storeActive = true) (ha2 : env₁.isDirty = true)
    (ha3 : env₁.dirtyResult = .ok ids₁) (ha4 : ids₁.isEmpty = false)
    (ha5 : fetchAndUpdateDirtyIssues env₁ ids₁
      (readExistingJSONL parse₁ env₁.existingJournal).1 = .ok m₁)
    (ha6 : env₁.createTempOk = true) (ha7 : env₁.writeOk = true) (ha8 : env₁.renameOk = true)
    (hb1 : env₂.storeActive = true) (hb2 : env₂.isDirty = true)
    (hb3 : env₂.dirtyResult = .ok ids₂) (hb4 : ids₂.isEmpty = false)
    (hb5 : fetchAndUpdateDirtyIssues env₂ ids₂
      (readExistingJSONL parse₂ env₂.existingJournal).1 = .ok m₂)
    (hb6 : env₂.createTempOk = true) (hb7 : env₂.writeOk = true) (hb8 : env₂.renameOk = true)
    (hperm : (m₁.map (·.2)).Perm (m₂.map (·.2)))
    (hnd : ((m₁.map (·.2)).map Issue.id).Nodup) :
    ∃ issues, List.Sorted idLe issues ∧
      fsGet (runFs fs₁ (flushToJSONL enc sha₁ parse₁ env₁ path)) path =
        some (serializeIssues enc issues) ∧
      fsGet (runFs fs₂ (flushToJSONL enc sha₂ parse₂ env₂ path)) path =
        some (serializeIssues enc issues) := by
  refine ⟨sortIssues (m₁.map (·.2)), sortIssues_sorted _, ?_, ?_⟩
  · exact flush_success_fsGet enc sha₁ parse₁ env₁ path fs₁ ids₁ m₁
      ha1 ha2 ha3 ha4 ha5 ha6 ha7 ha8
  · rw [flush_success_fsGet enc sha₂ parse₂ env₂ path fs₂ ids₂ m₂
      hb1 hb2 hb3 hb4 hb5 hb6 hb7 hb8]
    rw [sortIssues_eq_of_perm (m₁.map (·.2)) (m₂.map (·.2)) hperm hnd]

/-- Issues used in the C8 witness scenario. -/
def issueA : Issue := { id := "bd-a", title := "A" }

/-- Second C8 witness issue. -/
def issueB : Issue := { id := "bd-b", title := "B" }

/-- Third C8 witness issue, fetched from the store as the dirty one. -/
def issueCw : Issue := { id := "bd-c", title := "C" }

/-- Line decoder of the C8 witness journals. -/
def parse8 : String → Except String Issue := fun l =>
  if l == "A" then .ok issueA else if l == "B" then .ok issueB else .error "bad"

/-- C8 witness: two flushes over journals holding the same two entities in
opposite line order, plus the same dirty entity, produce the same sorted
journal content. -/
theorem C8_witness :
    ∃ issues, List.Sorted idLe issues ∧
      fsGet (runFs [("j", "OLD")] (flushToJSONL (fun i => i.id) (fun s => "#" ++ s) parse8
        { dirtyResult := .ok ["bd-c"], existingJournal := some "A\nB",
          getIssue := fun _ => .ok (some issueCw) } "j")) "j" =
        some (serializeIssues (fun i => i.id) issues) ∧
      fsGet (runFs [("j", "OLD")] (flushToJSONL (fun i => i.id) (fun s => "#" ++ s) parse8
        { dirtyResult := .ok ["bd-c"], existingJournal := some "B\nA",
          getIssue := fun _ => .ok (some issueCw) } "j")) "j" =
        some (serializeIssues (fun i => i.id) issues) :=
  C8_theorem (fun i => i.id) (fun s => "#" ++ s) (fun s => "#" ++ s) parse8 parse8
    { dirtyResult := .ok ["bd-c"], existingJournal := some "A\nB",
      getIssue := fun _ => .ok (some issueCw) }
    { dirtyResult := .ok ["bd-c"], existingJournal := some "B\nA",
      getIssue := fun _ => .ok (some issueCw) }
    "j" [("j", "OLD")] [("j", "OLD")] ["bd-c"] ["bd-c"]
    [("bd-a", issueA), ("bd-b", issueB), ("bd-c", issueCw)]
    [("bd-b", issueB), ("bd-a", issueA), ("bd-c", issueCw)]
    rfl rfl rfl (by decide) rfl rfl rfl rfl
    rfl rfl rfl (by decide) rfl rfl rfl rfl
    (List.Perm.swap issueB issueA [issueCw]) (by decide)

theorem readLines_mem (parse : String → Except String Issue) :
    ∀ lines n m₀ p, p ∈ (readLines parse lines n m₀).1 →
      p ∈ m₀ ∨ ∃ l ∈ lines, parse l = .ok p.2 := by
  intro lines
  induction lines with
  | nil =>
    intro n m₀ p hp
    left
    simpa [readLines] using hp
  | cons line rest ih =>
    intro n m₀ p hp
    unfold readLines at hp
    by_cases hl : line == ""
    · rw [if_pos hl] at hp
      rcases ih _ _ p hp with h | ⟨l, hlm, hok1⟩
      · exact Or.inl h
      · exact Or.inr ⟨l, List.mem_cons_of_mem _ hlm, hok1⟩
    · rw [if_neg hl] at hp
      cases hps : parse line with
      | ok issue =>
        rw [hps] at hp
        rcases ih _ _ p hp with h | ⟨l, hlm, hok2⟩
        · unfold mapInsert at h
          rcases List.mem_append.mp h with h1 | h1
          · exact Or.inl (List.mem_of_mem_filter h1)
          · rcases List.mem_singleton.mp h1 with rfl
            exact Or.inr ⟨line, List.mem_cons_self _ _, hps⟩
        · exact Or.inr ⟨l, List.mem_cons_of_mem _ hlm, hok2⟩
      | error err =>
        rw [hps] at hp
        dsimp only at hp
        rcases ih _ _ p hp with h | ⟨l, hlm, hok2⟩
        · exact Or.inl h
        · exact Or.inr ⟨l, List.mem_cons_of_mem _ hlm, hok2⟩

theorem readLines_warn_length (parse : String → Except String Issue) :
    ∀ lines n m₀, (readLines parse lines n m₀).2.length = countMalformed parse lines := by
  intro lines
  induction lines with
  | nil => intro n m₀; rfl
  | cons line rest ih =>
    intro n m₀
    unfold readLines countMalformed
    by_cases hl : line == ""
    · rw [if_pos hl]
      rw [List.filter_cons]
      rw [if_neg (by simp [hl])]
      exact ih _ _
    · rw [if_neg hl]
      cases hps : parse line with
      | ok issue =>
        rw [List.filter_cons, if_neg (by simp [hl, hps])]
        exact ih _ _
      | error err =>
        rw [List.filter_cons, if_pos (by simp [hl, hps])]
        dsimp only [List.length_cons]
        rw [ih _ _]
        rfl

theorem parseLines_error_exists (parse : String → Except String Issue) :
    ∀ lines n line e, line ∈ lines → ¬ line = "" → parse line = .error e →
      ∃ msg, parseLines parse lines n = .error msg := by
  intro lines
  induction lines with
  | nil => intro n line e h; exact absurd h (List.not_mem_nil line)
  | cons hd rest ih =>
    intro n line e hmem hne hpe
    unfold parseLines
    by_cases hl : hd == ""
    · rw [if_pos hl]
      have hlr : line ∈ rest := by
        rcases List.mem_cons.mp hmem with rfl | h
        · exact absurd (by simpa using hl) hne
        · exact h
      exact ih _ line e hlr hne hpe
    · rw [if_neg hl]
      cases hps : parse hd with
      | error err => exact ⟨_, rfl⟩
      | ok issue =>
        have hlr : line ∈ rest := by
          rcases List.mem_cons.mp hmem with rfl | h
          · rw [hps] at hpe
            exact absurd hpe (by simp)
          · exact h
        obtain ⟨msg, hmsg⟩ := ih (n + 1) line e hlr hne hpe
        rw [hmsg]
        exact ⟨msg, rfl⟩

/-- C9: during an incremental flush, readExistingJSONL never aborts: every
entry of the produced map comes from a line that parsed successfully (so the
rewritten journal contains no trace of malformed lines), each malformed
non-empty line contributes exactly one stderr warning, and a flush over such
a journal still runs to success; by contrast the import parser fails on the
same data whenever any non-empty line is malformed. -/
theorem C9_theorem (parse : String → Except String Issue) (data line e : String)
    (enc : Issue → String) (sha : String → String) (env : FlushEnv) (path : String)
    (ids : List String) (m : List (String × Issue)) :
    (∀ p ∈ (readExistingJSONL parse (some data)).1,
      ∃ l ∈ splitLines data, parse l = .ok p.2) ∧
    ((readExistingJSONL parse (some data)).2.length =
      countMalformed parse (splitLines data) ∧
     ∀ ev ∈ (readExistingJSONL parse (some data)).2, ∃ msg, ev = Event.stderr msg) ∧
    (env.existingJournal = some data → env.storeActive = true → env.isDirty = true →
     env.dirtyResult = .ok ids → ids.isEmpty = false →
     fetchAndUpdateDirtyIssues env ids (readExistingJSONL parse env.existingJournal).1 =
       .ok m →
     env.createTempOk = true → env.writeOk = true → env.renameOk = true →
     Event.flushSuccess ∈ flushToJSONL enc sha parse env path) ∧
    (line ∈ splitLines data → ¬ line = "" → parse line = .error e →
     ∃ msg, parseJSONLIssues parse data = .error msg) := by
  refine ⟨?_, ⟨?_, ?_⟩, ?_, ?_⟩
  · intro p hp
    rcases readLines_mem parse (splitLines data) 0 [] p hp with h | h
    · exact absurd h (List.not_mem_nil p)
    · exact h
  · exact readLines_warn_length parse (splitLines data) 0 []
  · exact readLines_stderr_only parse (splitLines data) 0 []
  · intro hj h1 h2 h3 h4 h5 h6 h7 h8
    rw [flush_success_trace enc sha parse env path ids m h1 h2 h3 h4 h5 h6 h7 h8]
    simp [List.mem_append]
  · intro hmem hne hpe
    exact parseLines_error_exists parse (splitLines data) 0 line e hmem hne hpe

/-- Journal used in the C9 witness: a malformed line between two good ones. -/
def dataC9 : String := "A\nXX\nB"

/-- C9 witness: a concrete corrupted journal whose flush succeeds with one
warning while the import parser rejects it. -/
theorem C9_witness :
    Event.flushSuccess ∈ flushToJSONL (fun i => i.id) (fun s => "#" ++ s) parse8
      { dirtyResult := .ok ["bd-c"], existingJournal := some dataC9,
        getIssue := fun _ => .ok (some issueCw) } "j" ∧
    (∃ msg, parseJSONLIssues parse8 dataC9 = .error msg) ∧
    (readExistingJSONL parse8 (some dataC9)).2.length =
      countMalformed parse8 (splitLines dataC9) :=
  ⟨((C9_theorem parse8 dataC9 "XX" "bad" (fun i => i.id) (fun s => "#" ++ s)
      { dirtyResult := .ok ["bd-c"], existingJournal := some dataC9,
        getIssue := fun _ => .ok (some issueCw) } "j" ["bd-c"]
      [("bd-a", issueA), ("bd-b", issueB), ("bd-c", issueCw)]).2.2.1)
      rfl rfl rfl rfl (by decide) rfl rfl rfl rfl,
   ((C9_theorem parse8 dataC9 "XX" "bad" (fun i => i.id) (fun s => "#" ++ s)
      { dirtyResult := .ok ["bd-c"], existingJournal := some dataC9,
        getIssue := fun _ => .ok (some issueCw) } "j" ["bd-c"]
      [("bd-a", issueA), ("bd-b", issueB), ("bd-c", issueCw)]).2.2.2)
      (by decide) (by decide) rfl,
   ((C9_theorem parse8 dataC9 "XX" "bad" (fun i => i.id) (fun s => "#" ++ s)
      { dirtyResult := .ok ["bd-c"], existingJournal := some dataC9,
        getIssue := fun _ => .ok (some issueCw) } "j" ["bd-c"]
      [("bd-a", issueA), ("bd-b", issueB), ("bd-c", issueCw)]).2.1.1)⟩
